import Mathlib

/-!
# Stock ledger and sale engine: a shallow embedding

This file embeds the stock-and-sale consistency core of the inventory
back office (`app/services/inventory_service.py`, `app/repositories/sale_repo.py`
and the models they manipulate) as pure Lean functions over an explicit
database state, and proves the specified properties about them.

Modelling conventions:
* SQLAlchemy `Decimal` columns become `ℚ` (exact decimal arithmetic).
* Integer columns become `Int` (stock may go negative under an override).
* A table is a `List` of rows, kept in creation order; `scalar_one_or_none`
  lookups become `List.find?` and in-place ORM mutation of a row becomes a
  map over the table replacing the row with the same primary key.
* A Python `raise` becomes `Except.error`.  The surrounding transaction is
  the `runTx` boundary: a call that raises before `commit` leaves the
  database exactly as it was (session rollback), a call that reaches
  `commit` installs the new state.
* The alert bookkeeping calls (`_check_and_create_alerts`,
  `_check_and_resolve_alerts`) are awaited calls that may themselves raise;
  the service methods are therefore parametrised by the alert step, and the
  concrete operations instantiate it with the (never-failing) pure
  translation of the helper.  This preserves the source's control flow:
  there is no `try/except` around the alert step, so a failure there
  propagates before `commit` is reached.
-/

namespace Inventory

/-- `MovementType` from `app/models/inventory_movement.py`. -/
inductive MovementType where
  | entry
  | exit
  | adjustment
  | transfer
  | initial
deriving DecidableEq

/-- `AlertType` from `app/models/stock_alert.py`. -/
inductive AlertType where
  | low_stock
  | out_of_stock
  | overstock
  | expiring_soon
deriving DecidableEq

/-- `AlertStatus` from `app/models/stock_alert.py`. -/
inductive AlertStatus where
  | active
  | resolved
  | dismissed
deriving DecidableEq

/-- `SaleStatus` from `app/models/sale.py` (stored as a string column;
`"completed"` and `"annulled"` are the only values the code writes). -/
inductive SaleStatus where
  | completed
  | annulled
deriving DecidableEq

/-- The fields of `Product` (`app/models/product.py`) that the stock/sale
core reads or writes. -/
structure Product where
  id : Nat
  tenant_id : Nat
  name : String
  price : ℚ
  cost : Option ℚ
  stock : Int
  min_stock : Int
deriving DecidableEq

/-- A row of `inventory_movements` (`app/models/inventory_movement.py`). -/
structure InventoryMovement where
  tenant_id : Nat
  product_id : Nat
  user_id : Option Nat
  movement_type : MovementType
  quantity : Int
  stock_before : Int
  stock_after : Int
  unit_cost : Option ℚ
  reference : Option String
  notes : Option String
deriving DecidableEq

/-- A row of `stock_alerts` (`app/models/stock_alert.py`). -/
structure StockAlert where
  tenant_id : Nat
  product_id : Nat
  alert_type : AlertType
  status : AlertStatus
  current_stock : Int
  threshold_value : Int
  message : String
deriving DecidableEq

/-- A row of `sales` (`app/models/sale.py`). -/
structure Sale where
  id : Nat
  tenant_id : Nat
  user_id : Option Nat
  total_amount : ℚ
  payment_method : String
  status : SaleStatus
  notes : Option String
deriving DecidableEq

/-- A row of `sale_items` (`app/models/sale.py`). -/
structure SaleItem where
  sale_id : Nat
  product_id : Nat
  quantity : Int
  unit_price : ℚ
  subtotal : ℚ
deriving DecidableEq

/-- The database state touched by the core: each table as a list of rows in
creation order, plus the `sales` id sequence (`flush` draws from it). -/
structure DB where
  products : List Product
  movements : List InventoryMovement
  alerts : List StockAlert
  sales : List Sale
  sale_items : List SaleItem
  next_sale_id : Nat
deriving DecidableEq

/-- The typed errors of `app/core/exceptions.py` that the core raises, plus
`generic_error` for a plain Python `Exception` (as raised by
`annul_sale` on an already-annulled sale) and for modelling an unexpected
failure inside an awaited step. -/
inductive Err where
  | product_not_found (product_id : Nat)
  | insufficient_stock (product_name : String) (requested : Int) (available : Int)
  | invalid_stock_operation (reason : String)
  | generic_error (message : String)
deriving DecidableEq

deriving instance DecidableEq for Except

/-- The transaction boundary: a call that raises rolls the session back
(state unchanged, no value), a call that commits installs the new state. -/
def runTx {α : Type} (db : DB) (op : Except Err (DB × α)) : DB × Option α :=
  match op with
  | .ok (db', a) => (db', some a)
  | .error _ => (db, none)

/-- `ProductRepository.get_by_id` / the tenant-scoped product `select` used
by `create_sale`: first row matching id and tenant. -/
def getProduct (db : DB) (product_id tenant_id : Nat) : Option Product :=
  db.products.find? (fun p => p.id == product_id && p.tenant_id == tenant_id)

/-- In-place ORM mutation of a product row: the row with the same primary
key is replaced by the updated object. -/
def setProduct (db : DB) (p : Product) : DB :=
  { db with products := db.products.map (fun q => if q.id == p.id then p else q) }

/-- `StockAlertRepository.get_by_product`: alerts filtered by tenant and
product (the source also orders by creation date; order is irrelevant to
the callers, which only membership-test the result). -/
def alertsByProduct (db : DB) (product_id tenant_id : Nat) : List StockAlert :=
  db.alerts.filter (fun a => a.tenant_id == tenant_id && a.product_id == product_id)

/-- The LOW_STOCK alert row built by `_check_and_create_alerts`. -/
def lowStockAlert (tenant_id : Nat) (p : Product) : StockAlert :=
  { tenant_id := tenant_id
    product_id := p.id
    alert_type := .low_stock
    status := .active
    current_stock := p.stock
    threshold_value := p.min_stock
    message := "Stock bajo" }

/-- The OUT_OF_STOCK alert row built by `_check_and_create_alerts`. -/
def outOfStockAlert (tenant_id : Nat) (p : Product) : StockAlert :=
  { tenant_id := tenant_id
    product_id := p.id
    alert_type := .out_of_stock
    status := .active
    current_stock := p.stock
    threshold_value := 0
    message := "Sin stock" }

/-- `InventoryService._check_and_create_alerts`: after a decrease, create a
LOW_STOCK alert when `0 < stock <= min_stock` and no active LOW_STOCK alert
exists for the product, else an OUT_OF_STOCK alert when `stock <= 0` and no
active OUT_OF_STOCK alert exists. -/
def check_and_create_alerts (db : DB) (p : Product) (tenant_id : Nat) : DB :=
  let active := (alertsByProduct db p.id tenant_id).filter (fun a => a.status == .active)
  if p.stock ≤ p.min_stock ∧ 0 < p.stock then
    if active.any (fun a => a.alert_type == .low_stock) then db
    else { db with alerts := db.alerts ++ [lowStockAlert tenant_id p] }
  else if p.stock ≤ 0 then
    if active.any (fun a => a.alert_type == .out_of_stock) then db
    else { db with alerts := db.alerts ++ [outOfStockAlert tenant_id p] }
  else db

/-- The per-alert effect of `_check_and_resolve_alerts`: an active alert of
the product is resolved when OUT_OF_STOCK and `stock > 0`, or LOW_STOCK and
`stock > min_stock`. -/
def resolveAlert (p : Product) (tenant_id : Nat) (a : StockAlert) : StockAlert :=
  if a.tenant_id == tenant_id && a.product_id == p.id && a.status == .active then
    if a.alert_type == AlertType.out_of_stock ∧ 0 < p.stock then
      { a with status := .resolved }
    else if a.alert_type == AlertType.low_stock ∧ p.min_stock < p.stock then
      { a with status := .resolved }
    else a
  else a

/-- `InventoryService._check_and_resolve_alerts`: iterate the product's
active alerts, resolving those whose condition no longer holds. -/
def check_and_resolve_alerts (db : DB) (p : Product) (tenant_id : Nat) : DB :=
  { db with alerts := db.alerts.map (resolveAlert p tenant_id) }

/-- An awaited alert-bookkeeping step as seen by the service methods: a call
that may raise.  The concrete operations use the never-failing pure
translations below; a step that returns `.error` models a failure raised
inside the bookkeeping call. -/
abbrev AlertStep := DB → Product → Nat → Except Err DB

/-- The normal (never-failing) `_check_and_create_alerts` step. -/
def createAlertsStep : AlertStep := fun db p tenant_id =>
  .ok (check_and_create_alerts db p tenant_id)

/-- The normal (never-failing) `_check_and_resolve_alerts` step. -/
def resolveAlertsStep : AlertStep := fun db p tenant_id =>
  .ok (check_and_resolve_alerts db p tenant_id)

/-- `InventoryService.add_stock`, parametrised by the alert step it awaits
between the movement write and `commit` (the source has no `try/except`
around that call, so an error there propagates and `commit` is never
reached). -/
def add_stock_with (alertStep : AlertStep) (db : DB) (product_id : Nat) (quantity : Int)
    (tenant_id : Nat) (user_id : Option Nat) (unit_cost : Option ℚ)
    (reference notes : Option String) : Except Err (DB × InventoryMovement) :=
  if quantity ≤ 0 then
    .error (.invalid_stock_operation "La cantidad debe ser mayor a 0")
  else
    match getProduct db product_id tenant_id with
    | none => .error (.product_not_found product_id)
    | some product =>
      let stock_before := product.stock
      let product' := { product with stock := product.stock + quantity }
      let stock_after := product'.stock
      let movement : InventoryMovement :=
        { tenant_id := tenant_id
          product_id := product_id
          user_id := user_id
          movement_type := .entry
          quantity := quantity
          stock_before := stock_before
          stock_after := stock_after
          unit_cost := unit_cost
          reference := reference
          notes := notes }
      let db1 := setProduct db product'
      let db2 := { db1 with movements := db1.movements ++ [movement] }
      match alertStep db2 product' tenant_id with
      | .error e => .error e
      | .ok db3 => .ok (db3, movement)

/-- `InventoryService.add_stock` proper. -/
def add_stock (db : DB) (product_id : Nat) (quantity : Int) (tenant_id : Nat)
    (user_id : Option Nat) (unit_cost : Option ℚ) (reference notes : Option String) :
    Except Err (DB × InventoryMovement) :=
  add_stock_with resolveAlertsStep db product_id quantity tenant_id user_id unit_cost
    reference notes

/-- `InventoryService.remove_stock`, parametrised by the awaited alert step. -/
def remove_stock_with (alertStep : AlertStep) (db : DB) (product_id : Nat) (quantity : Int)
    (tenant_id : Nat) (user_id : Option Nat) (reference notes : Option String)
    (allow_negative : Bool) : Except Err (DB × InventoryMovement) :=
  if quantity ≤ 0 then
    .error (.invalid_stock_operation "La cantidad debe ser mayor a 0")
  else
    match getProduct db product_id tenant_id with
    | none => .error (.product_not_found product_id)
    | some product =>
      if ¬allow_negative ∧ product.stock < quantity then
        .error (.insufficient_stock product.name quantity product.stock)
      else
        let stock_before := product.stock
        let product' := { product with stock := product.stock - quantity }
        let stock_after := product'.stock
        let movement : InventoryMovement :=
          { tenant_id := tenant_id
            product_id := product_id
            user_id := user_id
            movement_type := .exit
            quantity := -quantity
            stock_before := stock_before
            stock_after := stock_after
            unit_cost := none
            reference := reference
            notes := notes }
        let db1 := setProduct db product'
        let db2 := { db1 with movements := db1.movements ++ [movement] }
        match alertStep db2 product' tenant_id with
        | .error e => .error e
        | .ok db3 => .ok (db3, movement)

/-- `InventoryService.remove_stock` proper. -/
def remove_stock (db : DB) (product_id : Nat) (quantity : Int) (tenant_id : Nat)
    (user_id : Option Nat) (reference notes : Option String) (allow_negative : Bool) :
    Except Err (DB × InventoryMovement) :=
  remove_stock_with createAlertsStep db product_id quantity tenant_id user_id
    reference notes allow_negative

/-- The notes string `adjust_stock` writes on its movement. -/
def adjust_notes (reason : Option String) : String :=
  match reason with
  | some r => "Ajuste de inventario: " ++ r
  | none => "Ajuste de inventario"

/-- `InventoryService.adjust_stock`, parametrised by the two awaited alert
steps (create on a decrease, resolve on an increase). -/
def adjust_stock_with (createStep resolveStep : AlertStep) (db : DB) (product_id : Nat)
    (new_stock : Int) (tenant_id : Nat) (user_id : Option Nat) (reason : Option String) :
    Except Err (DB × InventoryMovement) :=
  if new_stock < 0 then
    .error (.invalid_stock_operation "El stock no puede ser negativo")
  else
    match getProduct db product_id tenant_id with
    | none => .error (.product_not_found product_id)
    | some product =>
      let stock_before := product.stock
      let difference := new_stock - stock_before
      if difference = 0 then
        .error (.invalid_stock_operation "El nuevo stock es igual al actual")
      else
        let product' := { product with stock := new_stock }
        let movement : InventoryMovement :=
          { tenant_id := tenant_id
            product_id := product_id
            user_id := user_id
            movement_type := .adjustment
            quantity := difference
            stock_before := stock_before
            stock_after := new_stock
            unit_cost := none
            reference := none
            notes := some (adjust_notes reason) }
        let db1 := setProduct db product'
        let db2 := { db1 with movements := db1.movements ++ [movement] }
        match (if difference < 0 then createStep db2 product' tenant_id
               else resolveStep db2 product' tenant_id) with
        | .error e => .error e
        | .ok db3 => .ok (db3, movement)

/-- `InventoryService.adjust_stock` proper. -/
def adjust_stock (db : DB) (product_id : Nat) (new_stock : Int) (tenant_id : Nat)
    (user_id : Option Nat) (reason : Option String) : Except Err (DB × InventoryMovement) :=
  adjust_stock_with createAlertsStep resolveAlertsStep db product_id new_stock tenant_id
    user_id reason

/-- One line of the `SaleCreate` payload (`schemas/sale.py`:
`SaleItemCreate`). -/
structure SaleItemInput where
  product_id : Nat
  quantity : Int
  unit_price : ℚ
deriving DecidableEq

/-- The `SaleCreate` payload. -/
structure SaleInput where
  payment_method : String
  notes : Option String
  items : List SaleItemInput
deriving DecidableEq

/-- Steps 5-6 of the `create_sale` item loop: decrement the product's
stock and record the EXIT movement for one line item. -/
def saleStep (tenant_id user_id sale_id : Nat) (db : DB) (product : Product)
    (item_data : SaleItemInput) : DB :=
  let stock_before := product.stock
  let product' := { product with stock := product.stock - item_data.quantity }
  let movement : InventoryMovement :=
    { tenant_id := tenant_id
      product_id := product.id
      user_id := some user_id
      movement_type := .exit
      quantity := -item_data.quantity
      stock_before := stock_before
      stock_after := product'.stock
      unit_cost := product.cost
      reference := some ("VENTA #" ++ toString sale_id)
      notes := some "Venta realizada por el POS" }
  let db1 := setProduct db product'
  { db1 with movements := db1.movements ++ [movement] }

/-- The per-item loop of `SaleRepository.create_sale` (steps 2-6): check
product and stock, accumulate the subtotal, build the `SaleItem`, decrement
the product's stock, record the EXIT movement.  The product lookup inside
the loop goes through the session's identity map, so it observes the stock
already reduced by earlier items of the same call. -/
def processSaleItems (tenant_id : Nat) (user_id : Nat) (sale_id : Nat) :
    List SaleItemInput → DB → ℚ → List SaleItem → Except Err (DB × ℚ × List SaleItem)
  | [], db, total, acc => .ok (db, total, acc)
  | item_data :: rest, db, total, acc =>
    match getProduct db item_data.product_id tenant_id with
    | none => .error (.product_not_found item_data.product_id)
    | some product =>
      if product.stock < item_data.quantity then
        .error (.insufficient_stock product.name item_data.quantity product.stock)
      else
        let subtotal := (item_data.quantity : ℚ) * item_data.unit_price
        let sale_item : SaleItem :=
          { sale_id := sale_id
            product_id := product.id
            quantity := item_data.quantity
            unit_price := item_data.unit_price
            subtotal := subtotal }
        processSaleItems tenant_id user_id sale_id rest
          (saleStep tenant_id user_id sale_id db product item_data) (total + subtotal)
          (acc ++ [sale_item])

/-- `SaleRepository.create_sale`: create the sale row (the `flush` draws its
id from the sequence), run the item loop, set the total, add the items, and
commit; any raise inside the loop aborts the whole transaction. -/
def create_sale (db : DB) (tenant_id user_id : Nat) (sale_data : SaleInput) :
    Except Err (DB × Sale) :=
  let sale_id := db.next_sale_id
  let db0 := { db with next_sale_id := db.next_sale_id + 1 }
  match processSaleItems tenant_id user_id sale_id sale_data.items db0 0 [] with
  | .error e => .error e
  | .ok (db1, total_amount, items) =>
    let new_sale : Sale :=
      { id := sale_id
        tenant_id := tenant_id
        user_id := some user_id
        total_amount := total_amount
        payment_method := sale_data.payment_method
        status := .completed
        notes := sale_data.notes }
    .ok ({ db1 with
            sales := db1.sales ++ [new_sale]
            sale_items := db1.sale_items ++ items }, new_sale)

/-- `SaleRepository.get_by_id` restricted to the sale row (its items are
recovered from the `sale_items` table). -/
def getSale (db : DB) (id tenant_id : Nat) : Option Sale :=
  db.sales.find? (fun s => s.id == id && s.tenant_id == tenant_id)

/-- The items of a sale (the `Sale.items` relationship). -/
def saleItemsOf (db : DB) (sale_id : Nat) : List SaleItem :=
  db.sale_items.filter (fun it => it.sale_id == sale_id)

/-- One pass of the `annul_sale` loop: increment the product's stock by the
sold quantity and record the compensating ADJUSTMENT movement. -/
def annulStep (tenant_id : Nat) (user_id : Option Nat) (sale_id : Nat) (db : DB)
    (product : Product) (item : SaleItem) : DB :=
  let stock_before := product.stock
  let product' := { product with stock := product.stock + item.quantity }
  let adjustment : InventoryMovement :=
    { tenant_id := tenant_id
      product_id := product.id
      user_id := user_id
      movement_type := .adjustment
      quantity := item.quantity
      stock_before := stock_before
      stock_after := product'.stock
      unit_cost := product.cost
      reference := some ("ANULACIÓN #" ++ toString sale_id)
      notes := some "Anulación de venta realizada" }
  let db1 := setProduct db product'
  { db1 with movements := db1.movements ++ [adjustment] }

/-- The per-item loop of `SaleRepository.annul_sale` (step 1): increment the
product's stock by the sold quantity and record a compensating ADJUSTMENT
movement.  `item.product` is the FK-loaded product row; a dangling FK would
surface as an unhandled attribute error aborting the transaction. -/
def annulItems (tenant_id : Nat) (user_id : Option Nat) (sale_id : Nat) :
    List SaleItem → DB → Except Err DB
  | [], db => .ok db
  | item :: rest, db =>
    match db.products.find? (fun p => p.id == item.product_id) with
    | none => .error (.generic_error "item.product is missing")
    | some product =>
      annulItems tenant_id user_id sale_id rest
        (annulStep tenant_id user_id sale_id db product item)

/-- `SaleRepository.annul_sale`: `None` (modelled `.ok (db, none)`) when the
sale is not found; a plain `Exception` when it is already annulled; else
revert each item's stock, record the adjustments, mark the sale annulled,
and commit. -/
def annul_sale (db : DB) (sale_id tenant_id : Nat) (user_id : Nat) :
    Except Err (DB × Option Sale) :=
  match getSale db sale_id tenant_id with
  | none => .ok (db, none)
  | some sale =>
    if sale.status == SaleStatus.annulled then
      .error (.generic_error "La venta ya ha sido anulada")
    else
      match annulItems tenant_id (some user_id) sale_id (saleItemsOf db sale_id) db with
      | .error e => .error e
      | .ok db1 =>
        let sale' := { sale with status := SaleStatus.annulled }
        .ok ({ db1 with
                sales := db1.sales.map (fun s => if s.id == sale.id then sale' else s) },
             some sale')

/-! ### Basic facts about the state helpers -/

theorem setProduct_movements (db : DB) (p : Product) :
    (setProduct db p).movements = db.movements := rfl

theorem setProduct_alerts (db : DB) (p : Product) :
    (setProduct db p).alerts = db.alerts := rfl

theorem setProduct_products (db : DB) (p : Product) :
    (setProduct db p).products = db.products.map (fun q => if q.id == p.id then p else q) := rfl

theorem crs_products (db : DB) (p : Product) (t : Nat) :
    (check_and_resolve_alerts db p t).products = db.products := rfl

theorem crs_movements (db : DB) (p : Product) (t : Nat) :
    (check_and_resolve_alerts db p t).movements = db.movements := rfl

theorem crs_sales (db : DB) (p : Product) (t : Nat) :
    (check_and_resolve_alerts db p t).sales = db.sales := rfl

theorem crs_sale_items (db : DB) (p : Product) (t : Nat) :
    (check_and_resolve_alerts db p t).sale_items = db.sale_items := rfl

theorem cca_products (db : DB) (p : Product) (t : Nat) :
    (check_and_create_alerts db p t).products = db.products := by
  simp only [check_and_create_alerts]
  repeat' split
  all_goals rfl

theorem cca_movements (db : DB) (p : Product) (t : Nat) :
    (check_and_create_alerts db p t).movements = db.movements := by
  simp only [check_and_create_alerts]
  repeat' split
  all_goals rfl

theorem cca_sales (db : DB) (p : Product) (t : Nat) :
    (check_and_create_alerts db p t).sales = db.sales := by
  simp only [check_and_create_alerts]
  repeat' split
  all_goals rfl

theorem cca_sale_items (db : DB) (p : Product) (t : Nat) :
    (check_and_create_alerts db p t).sale_items = db.sale_items := by
  simp only [check_and_create_alerts]
  repeat' split
  all_goals rfl

/-- Replacing the row with `p'.id` preserves the list of primary keys. -/
theorem setProduct_ids (db : DB) (p' : Product) :
    (setProduct db p').products.map Product.id = db.products.map Product.id := by
  simp only [setProduct, List.map_map]
  refine List.map_congr_left ?_
  intro q _
  by_cases h : (q.id == p'.id) = true
  · have hq : q.id = p'.id := by simpa using h
    simp [Function.comp_apply, h, hq]
  · have hq : q.id ≠ p'.id := by simpa using h
    simp [Function.comp_apply, hq]

/-- Core list fact: after replacing the row that a tenant-scoped `find?`
returned by an update with the same id and tenant, the same `find?` returns
the update. -/
theorem find?_update {l : List Product} {pid tid : Nat} {p : Product} (p' : Product)
    (h : l.find? (fun q => q.id == pid && q.tenant_id == tid) = some p)
    (hid : p'.id = p.id) (htid : p'.tenant_id = p.tenant_id) :
    (l.map (fun q => if q.id == p'.id then p' else q)).find?
      (fun q => q.id == pid && q.tenant_id == tid) = some p' := by
  have hp := List.find?_some h
  simp only [Bool.and_eq_true, beq_iff_eq] at hp
  induction l with
  | nil => simp at h
  | cons a l ih =>
    rw [List.find?_cons_eq_some] at h
    simp only [List.map_cons]
    rw [List.find?_cons_eq_some]
    rcases h with ⟨ha, haeq⟩ | ⟨ha, h⟩
    · subst haeq
      simp only [Bool.and_eq_true, beq_iff_eq] at ha
      have h1 : (a.id == p'.id) = true := by simp [hid]
      rw [if_pos h1]
      exact Or.inl ⟨by simp [hid.trans ha.1, htid.trans ha.2], rfl⟩
    · by_cases hb : (a.id == p'.id) = true
      · rw [if_pos hb]
        exact Or.inl ⟨by simp [hid.trans hp.1, htid.trans hp.2], rfl⟩
      · rw [if_neg hb]
        refine Or.inr ⟨ha, ih h⟩

/-- After the ORM mutates product `p` into `p'` (same id, same tenant), the
tenant-scoped lookup that found `p` now returns `p'`. -/
theorem getProduct_setProduct {db : DB} {pid tid : Nat} {p : Product} (p' : Product)
    (h : getProduct db pid tid = some p) (hid : p'.id = p.id)
    (htid : p'.tenant_id = p.tenant_id) :
    getProduct (setProduct db p') pid tid = some p' :=
  find?_update p' h hid htid

/-- Replacing a row commutes with lookup by primary key alone. -/
theorem find?_id_setProduct (l : List Product) (x : Nat) (p' : Product) :
    (l.map (fun q => if q.id == p'.id then p' else q)).find? (fun q => q.id == x) =
      (l.find? (fun q => q.id == x)).map (fun q => if q.id == p'.id then p' else q) := by
  have hf : ((fun (q : Product) => q.id == x) ∘ fun q => if q.id == p'.id then p' else q)
      = fun (q : Product) => q.id == x := by
    funext q
    by_cases h : (q.id == p'.id) = true
    · have hq : q.id = p'.id := by simpa using h
      simp [h, hq]
    · have hq : q.id ≠ p'.id := by simpa using h
      simp [hq]
  rw [List.find?_map, hf]

/-! ### The movement ledger invariants -/

/-- Every recorded movement satisfies the movement arithmetic. -/
def MovArith (db : DB) : Prop :=
  ∀ m ∈ db.movements, m.stock_after = m.stock_before + m.quantity

/-- The movements of one product, in creation order. -/
def movementsOf (db : DB) (pid : Nat) : List InventoryMovement :=
  db.movements.filter (fun m => m.product_id == pid)

/-- Replaying a movement list from a starting stock. -/
def replay (s0 : Int) (ms : List InventoryMovement) : Int :=
  ms.foldl (fun s m => s + m.quantity) s0

/-- The `stock_before` of each movement matches the running stock. -/
def ChainedFrom (s0 : Int) : List InventoryMovement → Prop
  | [] => True
  | m :: rest => m.stock_before = s0 ∧ ChainedFrom (m.stock_before + m.quantity) rest

/-- Ledger consistency: each product's stock is the replay of its movement
history from 0, and each movement's `stock_before` is the stock the replay
reaches just before it. -/
def LedgerOK (db : DB) : Prop :=
  ∀ p ∈ db.products, p.stock = replay 0 (movementsOf db p.id) ∧
    ChainedFrom 0 (movementsOf db p.id)

/-- Primary keys of the product table are distinct. -/
def UniqueIds (db : DB) : Prop := (db.products.map Product.id).Nodup

@[simp] theorem replay_nil (s0 : Int) : replay s0 [] = s0 := rfl

@[simp] theorem replay_cons (s0 : Int) (m : InventoryMovement) (ms : List InventoryMovement) :
    replay s0 (m :: ms) = replay (s0 + m.quantity) ms := rfl

@[simp] theorem chainedFrom_nil (s0 : Int) : ChainedFrom s0 [] ↔ True := Iff.rfl

@[simp] theorem chainedFrom_cons (s0 : Int) (m : InventoryMovement) (ms : List InventoryMovement) :
    ChainedFrom s0 (m :: ms) ↔
      m.stock_before = s0 ∧ ChainedFrom (m.stock_before + m.quantity) ms := Iff.rfl

theorem replay_append (s0 : Int) (ms : List InventoryMovement) (m : InventoryMovement) :
    replay s0 (ms ++ [m]) = replay s0 ms + m.quantity := by
  simp [replay, List.foldl_append]

theorem chainedFrom_append (s0 : Int) (ms : List InventoryMovement) (m : InventoryMovement) :
    ChainedFrom s0 (ms ++ [m]) ↔
      ChainedFrom s0 ms ∧ m.stock_before = replay s0 ms := by
  induction ms generalizing s0 with
  | nil => simp
  | cons a rest ih =>
    rw [List.cons_append, chainedFrom_cons, chainedFrom_cons, ih, replay_cons]
    constructor
    · rintro ⟨h1, h2, h3⟩
      exact ⟨⟨h1, h2⟩, by rw [h3, h1]⟩
    · rintro ⟨⟨h1, h2⟩, h3⟩
      exact ⟨h1, h2, by rw [h3, h1]⟩

/-- Distinct primary keys make rows with equal ids equal. -/
theorem uniqueIds_eq {db : DB} (hU : UniqueIds db) {p q : Product}
    (hp : p ∈ db.products) (hq : q ∈ db.products) (h : p.id = q.id) : p = q :=
  List.inj_on_of_nodup_map hU hp hq h

/-- The common mutation pattern of all five operations: replace product `p`
by `p'` (same id) and append one movement for it.  It preserves key
distinctness and ledger consistency. -/
theorem inv_mutate (p' : Product) (m : InventoryMovement) {db : DB} {p : Product}
    (hU : UniqueIds db) (hL : LedgerOK db)
    (hmem : p ∈ db.products) (hid : p'.id = p.id)
    (hmid : m.product_id = p.id)
    (hbefore : m.stock_before = p.stock)
    (hstk : p'.stock = p.stock + m.quantity) :
    UniqueIds { setProduct db p' with movements := db.movements ++ [m] } ∧
    LedgerOK { setProduct db p' with movements := db.movements ++ [m] } := by
  have hmov : ∀ x : Nat,
      movementsOf { setProduct db p' with movements := db.movements ++ [m] } x
        = movementsOf db x ++ if (m.product_id == x) = true then [m] else [] := by
    intro x
    simp only [movementsOf, List.filter_append]
    congr 1
    by_cases hx : (m.product_id == x) = true
    · simp [hx]
    · simp [hx]
  constructor
  · show ((setProduct db p').products.map Product.id).Nodup
    rw [setProduct_ids db p']
    exact hU
  · intro r hr
    have hr' : r ∈ db.products.map (fun q => if q.id == p'.id then p' else q) := hr
    obtain ⟨q, hq, hfq⟩ := List.mem_map.mp hr'
    by_cases hcase : (q.id == p'.id) = true
    · have hqid : q.id = p'.id := by simpa using hcase
      have hqp : q = p := uniqueIds_eq hU hq hmem (by rw [hqid, hid])
      rw [if_pos hcase] at hfq
      rw [← hfq]
      have hLp := hL p hmem
      rw [hmov p'.id]
      have hfilt : (m.product_id == p'.id) = true := by simp [hmid, hid]
      rw [if_pos hfilt, hid]
      constructor
      · rw [replay_append, hstk, hLp.1]
      · rw [chainedFrom_append]
        exact ⟨hLp.2, by rw [hbefore]; exact hLp.1⟩
    · have hqid : q.id ≠ p'.id := by simpa using hcase
      rw [if_neg hcase] at hfq
      rw [← hfq]
      have hLq := hL q hq
      rw [hmov q.id]
      have hfilt : ¬(m.product_id == q.id) = true := by
        simp only [beq_iff_eq, hmid]
        rw [← hid]
        exact fun hcon => hqid hcon.symm
      rw [if_neg hfilt]
      simpa using hLq

/-- Appending an arithmetically correct movement preserves `MovArith`. -/
theorem movArith_mutate (p' : Product) (m : InventoryMovement) {db : DB}
    (hMA : MovArith db) (hm : m.stock_after = m.stock_before + m.quantity) :
    MovArith { setProduct db p' with movements := db.movements ++ [m] } := by
  intro x hx
  rcases List.mem_append.mp hx with h | h
  · exact hMA x h
  · rw [List.mem_singleton.mp h]
    exact hm

/-- The combined ledger invariant. -/
def Inv (db : DB) : Prop := UniqueIds db ∧ MovArith db ∧ LedgerOK db

/-- `Inv` only looks at the product and movement tables. -/
theorem inv_fields {db₁ db₂ : DB} (hp : db₂.products = db₁.products)
    (hm : db₂.movements = db₁.movements) (h : Inv db₁) : Inv db₂ := by
  obtain ⟨h1, h2, h3⟩ := h
  refine ⟨?_, ?_, ?_⟩
  · unfold UniqueIds
    rw [hp]
    exact h1
  · unfold MovArith
    rw [hm]
    exact h2
  · unfold LedgerOK movementsOf
    rw [hp, hm]
    exact h3

/-- Inversion of a successful `add_stock`. -/
theorem add_stock_ok {db db' : DB} {pid : Nat} {q : Int} {tid : Nat} {uid : Option Nat}
    {c : Option ℚ} {r n : Option String} {m : InventoryMovement}
    (h : add_stock db pid q tid uid c r n = .ok (db', m)) :
    ∃ product : Product, getProduct db pid tid = some product ∧ 0 < q ∧
      m = { tenant_id := tid, product_id := pid, user_id := uid, movement_type := .entry,
            quantity := q, stock_before := product.stock, stock_after := product.stock + q,
            unit_cost := c, reference := r, notes := n } ∧
      db' = check_and_resolve_alerts
        { setProduct db { product with stock := product.stock + q } with
          movements := db.movements ++ [m] }
        { product with stock := product.stock + q } tid := by
  unfold add_stock add_stock_with at h
  split at h
  · simp at h
  · rename_i hq
    split at h
    · simp at h
    · rename_i product hget
      simp only [resolveAlertsStep, Except.ok.injEq, Prod.mk.injEq] at h
      obtain ⟨hdb, hm⟩ := h
      refine ⟨product, hget, by omega, hm.symm, ?_⟩
      rw [← hdb, ← hm]
      rfl

/-- Inversion of a successful `remove_stock`. -/
theorem remove_stock_ok {db db' : DB} {pid : Nat} {q : Int} {tid : Nat} {uid : Option Nat}
    {r n : Option String} {an : Bool} {m : InventoryMovement}
    (h : remove_stock db pid q tid uid r n an = .ok (db', m)) :
    ∃ product : Product, getProduct db pid tid = some product ∧ 0 < q ∧
      (an = false → q ≤ product.stock) ∧
      m = { tenant_id := tid, product_id := pid, user_id := uid, movement_type := .exit,
            quantity := -q, stock_before := product.stock,
            stock_after := product.stock - q,
            unit_cost := none, reference := r, notes := n } ∧
      db' = check_and_create_alerts
        { setProduct db { product with stock := product.stock - q } with
          movements := db.movements ++ [m] }
        { product with stock := product.stock - q } tid := by
  unfold remove_stock remove_stock_with at h
  split at h
  · simp at h
  · rename_i hq
    split at h
    · simp at h
    · rename_i product hget
      split at h
      · simp at h
      · rename_i hguard
        simp only [createAlertsStep, Except.ok.injEq, Prod.mk.injEq] at h
        obtain ⟨hdb, hm⟩ := h
        refine ⟨product, hget, by omega, ?_, hm.symm, ?_⟩
        · intro hfalse
          by_contra hlt
          exact hguard ⟨by simp [hfalse], by omega⟩
        · rw [← hdb, ← hm]
          rfl

/-- Inversion of a successful `adjust_stock`. -/
theorem adjust_stock_ok {db db' : DB} {pid : Nat} {ns : Int} {tid : Nat} {uid : Option Nat}
    {reason : Option String} {m : InventoryMovement}
    (h : adjust_stock db pid ns tid uid reason = .ok (db', m)) :
    ∃ product : Product, getProduct db pid tid = some product ∧ 0 ≤ ns ∧
      ns - product.stock ≠ 0 ∧
      m = { tenant_id := tid, product_id := pid, user_id := uid,
            movement_type := .adjustment, quantity := ns - product.stock,
            stock_before := product.stock, stock_after := ns,
            unit_cost := none, reference := none,
            notes := some (adjust_notes reason) } ∧
      db' = (if ns - product.stock < 0 then
              check_and_create_alerts
                { setProduct db { product with stock := ns } with
                  movements := db.movements ++ [m] }
                { product with stock := ns } tid
            else
              check_and_resolve_alerts
                { setProduct db { product with stock := ns } with
                  movements := db.movements ++ [m] }
                { product with stock := ns } tid) := by
  unfold adjust_stock adjust_stock_with at h
  split at h
  · simp at h
  · rename_i hns
    split at h
    · simp at h
    · rename_i product hget
      dsimp only at h
      split at h
      · simp at h
      · rename_i hdiff
        by_cases hneg : ns - product.stock < 0
        · rw [if_pos hneg] at h
          simp only [createAlertsStep, Except.ok.injEq, Prod.mk.injEq] at h
          obtain ⟨hdb, hm⟩ := h
          refine ⟨product, hget, by omega, hdiff, hm.symm, ?_⟩
          rw [if_pos hneg, ← hdb, ← hm]
          rfl
        · rw [if_neg hneg] at h
          simp only [resolveAlertsStep, Except.ok.injEq, Prod.mk.injEq] at h
          obtain ⟨hdb, hm⟩ := h
          refine ⟨product, hget, by omega, hdiff, hm.symm, ?_⟩
          rw [if_neg hneg, ← hdb, ← hm]
          rfl

/-- The id of a looked-up product is the id it was looked up by. -/
theorem getProduct_id {db : DB} {pid tid : Nat} {product : Product}
    (hget : getProduct db pid tid = some product) :
    product.id = pid ∧ product.tenant_id = tid := by
  have hx := List.find?_some hget
  simp only [Bool.and_eq_true, beq_iff_eq] at hx
  exact hx

/-- `add_stock` preserves the ledger invariant. -/
theorem add_stock_inv {db db' : DB} {pid : Nat} {q : Int} {tid : Nat} {uid : Option Nat}
    {c : Option ℚ} {r n : Option String} {m : InventoryMovement}
    (h : add_stock db pid q tid uid c r n = .ok (db', m)) (hI : Inv db) : Inv db' := by
  obtain ⟨product, hget, hq, hm, hdb⟩ := add_stock_ok h
  obtain ⟨hU, hMA, hL⟩ := hI
  have hmem : product ∈ db.products := List.mem_of_find?_eq_some hget
  have hpid : product.id = pid := (getProduct_id hget).1
  subst hdb
  refine inv_fields (crs_products _ _ _) (crs_movements _ _ _) ?_
  obtain ⟨hA, hB⟩ := inv_mutate { product with stock := product.stock + q } m
    hU hL hmem rfl (by rw [hm]; exact hpid.symm) (by rw [hm]) (by rw [hm])
  exact ⟨hA, movArith_mutate { product with stock := product.stock + q } m hMA (by rw [hm]), hB⟩

/-- `remove_stock` preserves the ledger invariant. -/
theorem remove_stock_inv {db db' : DB} {pid : Nat} {q : Int} {tid : Nat} {uid : Option Nat}
    {r n : Option String} {an : Bool} {m : InventoryMovement}
    (h : remove_stock db pid q tid uid r n an = .ok (db', m)) (hI : Inv db) : Inv db' := by
  obtain ⟨product, hget, hq, hok, hm, hdb⟩ := remove_stock_ok h
  obtain ⟨hU, hMA, hL⟩ := hI
  have hmem : product ∈ db.products := List.mem_of_find?_eq_some hget
  have hpid : product.id = pid := (getProduct_id hget).1
  subst hdb
  refine inv_fields (cca_products _ _ _) (cca_movements _ _ _) ?_
  obtain ⟨hA, hB⟩ := inv_mutate { product with stock := product.stock - q } m
    hU hL hmem rfl (by rw [hm]; exact hpid.symm) (by rw [hm])
    (by rw [hm]; exact sub_eq_add_neg _ _)
  exact ⟨hA, movArith_mutate { product with stock := product.stock - q } m hMA
    (by rw [hm]; exact sub_eq_add_neg _ _), hB⟩

/-- `adjust_stock` preserves the ledger invariant. -/
theorem adjust_stock_inv {db db' : DB} {pid : Nat} {ns : Int} {tid : Nat} {uid : Option Nat}
    {reason : Option String} {m : InventoryMovement}
    (h : adjust_stock db pid ns tid uid reason = .ok (db', m)) (hI : Inv db) : Inv db' := by
  obtain ⟨product, hget, hns, hdiff, hm, hdb⟩ := adjust_stock_ok h
  obtain ⟨hU, hMA, hL⟩ := hI
  have hmem : product ∈ db.products := List.mem_of_find?_eq_some hget
  have hpid : product.id = pid := (getProduct_id hget).1
  have hMut : Inv { setProduct db { product with stock := ns } with
      movements := db.movements ++ [m] } := by
    obtain ⟨hA, hB⟩ := inv_mutate { product with stock := ns } m
      hU hL hmem rfl (by rw [hm]; exact hpid.symm) (by rw [hm])
      (by rw [hm]; show ns = product.stock + (ns - product.stock); omega)
    exact ⟨hA, movArith_mutate { product with stock := ns } m hMA
      (by rw [hm]; show ns = product.stock + (ns - product.stock); omega), hB⟩
  subst hdb
  by_cases hneg : ns - product.stock < 0
  · rw [if_pos hneg]
    exact inv_fields (cca_products _ _ _) (cca_movements _ _ _) hMut
  · rw [if_neg hneg]
    exact inv_fields (crs_products _ _ _) (crs_movements _ _ _) hMut

/-- The item loop of `create_sale` preserves the ledger invariant. -/
theorem processSaleItems_inv {tid uid sid : Nat} :
    ∀ (items : List SaleItemInput) (db : DB) (total : ℚ) (acc : List SaleItem)
      (db' : DB) (total' : ℚ) (acc' : List SaleItem),
      processSaleItems tid uid sid items db total acc = .ok (db', total', acc') →
      Inv db → Inv db' := by
  intro items
  induction items with
  | nil =>
    intro db total acc db' total' acc' h hI
    unfold processSaleItems at h
    simp only [Except.ok.injEq, Prod.mk.injEq] at h
    rw [← h.1]
    exact hI
  | cons item rest ih =>
    intro db total acc db' total' acc' h hI
    unfold processSaleItems at h
    split at h
    · simp at h
    · rename_i product hget
      split at h
      · simp at h
      · rename_i hstock
        dsimp only at h
        refine ih _ _ _ _ _ _ h ?_
        obtain ⟨hU, hMA, hL⟩ := hI
        have hmem : product ∈ db.products := List.mem_of_find?_eq_some hget
        obtain ⟨hA, hB⟩ := inv_mutate
          { product with stock := product.stock - item.quantity }
          { tenant_id := tid, product_id := product.id, user_id := some uid,
            movement_type := .exit, quantity := -item.quantity,
            stock_before := product.stock,
            stock_after := product.stock - item.quantity,
            unit_cost := product.cost,
            reference := some ("VENTA #" ++ toString sid),
            notes := some "Venta realizada por el POS" }
          hU hL hmem rfl rfl rfl (sub_eq_add_neg _ _)
        exact ⟨hA, movArith_mutate
          { product with stock := product.stock - item.quantity }
          { tenant_id := tid, product_id := product.id, user_id := some uid,
            movement_type := .exit, quantity := -item.quantity,
            stock_before := product.stock,
            stock_after := product.stock - item.quantity,
            unit_cost := product.cost,
            reference := some ("VENTA #" ++ toString sid),
            notes := some "Venta realizada por el POS" }
          hMA (sub_eq_add_neg _ _), hB⟩

/-- The item loop of `annul_sale` preserves the ledger invariant. -/
theorem annulItems_inv {tid : Nat} {uid : Option Nat} {sid : Nat} :
    ∀ (items : List SaleItem) (db db' : DB),
      annulItems tid uid sid items db = .ok db' → Inv db → Inv db' := by
  intro items
  induction items with
  | nil =>
    intro db db' h hI
    unfold annulItems at h
    simp only [Except.ok.injEq] at h
    rw [← h]
    exact hI
  | cons item rest ih =>
    intro db db' h hI
    unfold annulItems at h
    split at h
    · simp at h
    · rename_i product hfind
      refine ih _ _ h ?_
      obtain ⟨hU, hMA, hL⟩ := hI
      have hmem : product ∈ db.products := List.mem_of_find?_eq_some hfind
      obtain ⟨hA, hB⟩ := inv_mutate
        { product with stock := product.stock + item.quantity }
        { tenant_id := tid, product_id := product.id, user_id := uid,
          movement_type := .adjustment, quantity := item.quantity,
          stock_before := product.stock,
          stock_after := product.stock + item.quantity,
          unit_cost := product.cost,
          reference := some ("ANULACIÓN #" ++ toString sid),
          notes := some "Anulación de venta realizada" }
        hU hL hmem rfl rfl rfl rfl
      exact ⟨hA, movArith_mutate
        { product with stock := product.stock + item.quantity }
        { tenant_id := tid, product_id := product.id, user_id := uid,
          movement_type := .adjustment, quantity := item.quantity,
          stock_before := product.stock,
          stock_after := product.stock + item.quantity,
          unit_cost := product.cost,
          reference := some ("ANULACIÓN #" ++ toString sid),
          notes := some "Anulación de venta realizada" }
        hMA rfl, hB⟩

/-- `create_sale` preserves the ledger invariant. -/
theorem create_sale_inv {db db' : DB} {tid uid : Nat} {inp : SaleInput} {sale : Sale}
    (h : create_sale db tid uid inp = .ok (db', sale)) (hI : Inv db) : Inv db' := by
  simp only [create_sale] at h
  split at h
  · simp at h
  · rename_i res db1 total items heq
    simp only [Except.ok.injEq, Prod.mk.injEq] at h
    obtain ⟨hdb, hsale⟩ := h
    rw [← hdb]
    have h0 : Inv { db with next_sale_id := db.next_sale_id + 1 } :=
      inv_fields rfl rfl hI
    have h1 := processSaleItems_inv _ _ _ _ _ _ _ heq h0
    exact inv_fields rfl rfl h1

/-- `annul_sale` preserves the ledger invariant. -/
theorem annul_sale_inv {db db' : DB} {sid tid uid : Nat} {os : Option Sale}
    (h : annul_sale db sid tid uid = .ok (db', os)) (hI : Inv db) : Inv db' := by
  unfold annul_sale at h
  split at h
  · simp only [Except.ok.injEq, Prod.mk.injEq] at h
    rw [← h.1]
    exact hI
  · rename_i sale hgetS
    split at h
    · simp at h
    · split at h
      · simp at h
      · rename_i db1 hann
        dsimp only at h
        simp only [Except.ok.injEq, Prod.mk.injEq] at h
        obtain ⟨hdb, _⟩ := h
        rw [← hdb]
        have h1 := annulItems_inv _ _ _ hann hI
        exact inv_fields rfl rfl h1

/-- One successful core operation, as a step of the system. -/
inductive Step : DB → DB → Prop where
  | add (db db' : DB) (pid : Nat) (q : Int) (tid : Nat) (uid : Option Nat) (c : Option ℚ)
      (r n : Option String) (m : InventoryMovement)
      (h : add_stock db pid q tid uid c r n = .ok (db', m)) : Step db db'
  | remove (db db' : DB) (pid : Nat) (q : Int) (tid : Nat) (uid : Option Nat)
      (r n : Option String) (an : Bool) (m : InventoryMovement)
      (h : remove_stock db pid q tid uid r n an = .ok (db', m)) : Step db db'
  | adjust (db db' : DB) (pid : Nat) (ns : Int) (tid : Nat) (uid : Option Nat)
      (reason : Option String) (m : InventoryMovement)
      (h : adjust_stock db pid ns tid uid reason = .ok (db', m)) : Step db db'
  | sale (db db' : DB) (tid uid : Nat) (inp : SaleInput) (s : Sale)
      (h : create_sale db tid uid inp = .ok (db', s)) : Step db db'
  | annul (db db' : DB) (sid tid uid : Nat) (os : Option Sale)
      (h : annul_sale db sid tid uid = .ok (db', os)) : Step db db'

/-- States reachable through successful core operations. -/
def Reachable : DB → DB → Prop := Relation.ReflTransGen Step

theorem step_inv {db db' : DB} (h : Step db db') (hI : Inv db) : Inv db' := by
  cases h with
  | add _ _ _ _ _ _ _ _ h => exact add_stock_inv h hI
  | remove _ _ _ _ _ _ _ _ h => exact remove_stock_inv h hI
  | adjust _ _ _ _ _ _ h => exact adjust_stock_inv h hI
  | sale _ _ _ _ h => exact create_sale_inv h hI
  | annul _ _ _ _ h => exact annul_sale_inv h hI

theorem reachable_inv {db db' : DB} (h : Reachable db db') (hI : Inv db) : Inv db' := by
  induction h with
  | refl => exact hI
  | tail _ hstep ih => exact step_inv hstep ih

/-- C3: every InventoryMovement created by the five core operations
(`add_stock`, `remove_stock`, `adjust_stock`, `create_sale`, `annul_sale`)
satisfies `stock_after = stock_before + quantity` (`MovArith`), and — per
`LedgerOK` — each product's movement history is chained (`ChainedFrom 0`:
each movement's `stock_before` equals the running stock immediately before
it, hence `stock_after` the stock immediately after), and replaying the
product's movements in creation order from the initial stock 0 reproduces
its current stock. -/
theorem movement_arithmetic_ledger {db0 db : DB}
    (hU : UniqueIds db0) (hm0 : db0.movements = [])
    (hs0 : ∀ p ∈ db0.products, p.stock = 0)
    (hreach : Reachable db0 db) :
    MovArith db ∧ LedgerOK db := by
  have hI0 : Inv db0 := by
    refine ⟨hU, ?_, ?_⟩
    · intro m hm
      rw [hm0] at hm
      simp at hm
    · intro p hp
      have hnil : movementsOf db0 p.id = [] := by simp [movementsOf, hm0]
      rw [hnil]
      exact ⟨by simpa using hs0 p hp, trivial⟩
  have hI := reachable_inv hreach hI0
  exact ⟨hI.2.1, hI.2.2⟩

/-- A one-product state with stock 0 and an empty ledger. -/
def dbC3 : DB :=
  { products := [{ id := 1, tenant_id := 1, name := "P", price := 10, cost := none,
                   stock := 0, min_stock := 5 }]
    movements := []
    alerts := []
    sales := []
    sale_items := []
    next_sale_id := 1 }

/-- The movement `add_stock dbC3 1 5 1` writes. -/
def mC3 : InventoryMovement :=
  { tenant_id := 1, product_id := 1, user_id := none, movement_type := .entry,
    quantity := 5, stock_before := 0, stock_after := 5, unit_cost := none,
    reference := none, notes := none }

/-- The state after `add_stock dbC3 1 5 1`. -/
def dbC3' : DB :=
  { products := [{ id := 1, tenant_id := 1, name := "P", price := 10, cost := none,
                   stock := 5, min_stock := 5 }]
    movements := [mC3]
    alerts := []
    sales := []
    sale_items := []
    next_sale_id := 1 }

theorem movement_arithmetic_ledger_witness : MovArith dbC3' ∧ LedgerOK dbC3' :=
  movement_arithmetic_ledger (by unfold UniqueIds; decide) rfl (by decide)
    (Relation.ReflTransGen.single
      (Step.add dbC3 dbC3' 1 5 1 none none none none mC3 (by rfl)))

/-! ### The sale item loop, unfolded -/

/-- Equation lemma: the empty item loop commits nothing further. -/
theorem processSaleItems_nil (tid uid sid : Nat) (db : DB) (total : ℚ) (acc : List SaleItem) :
    processSaleItems tid uid sid [] db total acc = .ok (db, total, acc) := rfl

/-- Equation lemma: one pass of the item loop of `create_sale`. -/
theorem processSaleItems_cons (tid uid sid : Nat) (item : SaleItemInput)
    (rest : List SaleItemInput) (db : DB) (total : ℚ) (acc : List SaleItem) :
    processSaleItems tid uid sid (item :: rest) db total acc =
      match getProduct db item.product_id tid with
      | none => .error (.product_not_found item.product_id)
      | some product =>
        if product.stock < item.quantity then
          .error (.insufficient_stock product.name item.quantity product.stock)
        else
          processSaleItems tid uid sid rest (saleStep tid uid sid db product item)
            (total + (item.quantity : ℚ) * item.unit_price)
            (acc ++ [{ sale_id := sid, product_id := product.id, quantity := item.quantity,
                       unit_price := item.unit_price,
                       subtotal := (item.quantity : ℚ) * item.unit_price }]) := rfl

/-- The item loop only touches products and movements. -/
theorem processSaleItems_frame {tid uid sid : Nat} :
    ∀ (items : List SaleItemInput) (db : DB) (total : ℚ) (acc : List SaleItem)
      (db' : DB) (total' : ℚ) (acc' : List SaleItem),
      processSaleItems tid uid sid items db total acc = .ok (db', total', acc') →
      db'.alerts = db.alerts ∧ db'.sales = db.sales ∧ db'.sale_items = db.sale_items ∧
        db'.next_sale_id = db.next_sale_id := by
  intro items
  induction items with
  | nil =>
    intro db total acc db' total' acc' h
    rw [processSaleItems_nil] at h
    simp only [Except.ok.injEq, Prod.mk.injEq] at h
    rw [← h.1]
    exact ⟨rfl, rfl, rfl, rfl⟩
  | cons item rest ih =>
    intro db total acc db' total' acc' h
    rw [processSaleItems_cons] at h
    split at h
    · simp at h
    · rename_i product hget
      split at h
      · simp at h
      · obtain ⟨h1, h2, h3, h4⟩ := ih _ _ _ _ _ _ h
        exact ⟨h1, h2, h3, h4⟩

/-- The items the loop accumulates: each belongs to the sale being built and
its subtotal is `quantity * unit_price`; the running total adds up their
subtotals. -/
theorem processSaleItems_items {tid uid sid : Nat} :
    ∀ (items : List SaleItemInput) (db : DB) (total : ℚ) (acc : List SaleItem)
      (db' : DB) (total' : ℚ) (acc' : List SaleItem),
      processSaleItems tid uid sid items db total acc = .ok (db', total', acc') →
      ∃ pre, acc' = acc ++ pre ∧
        total' = total + (pre.map SaleItem.subtotal).sum ∧
        ∀ it ∈ pre, it.sale_id = sid ∧ it.subtotal = (it.quantity : ℚ) * it.unit_price := by
  intro items
  induction items with
  | nil =>
    intro db total acc db' total' acc' h
    rw [processSaleItems_nil] at h
    simp only [Except.ok.injEq, Prod.mk.injEq] at h
    obtain ⟨h1, h2, h3⟩ := h
    exact ⟨[], by simp [← h3], by simp [← h2], by simp⟩
  | cons item rest ih =>
    intro db total acc db' total' acc' h
    rw [processSaleItems_cons] at h
    split at h
    · simp at h
    · rename_i product hget
      split at h
      · simp at h
      · obtain ⟨pre, hacc, htot, hall⟩ := ih _ _ _ _ _ _ h
        refine ⟨{ sale_id := sid, product_id := product.id, quantity := item.quantity,
                  unit_price := item.unit_price,
                  subtotal := (item.quantity : ℚ) * item.unit_price } :: pre, ?_, ?_, ?_⟩
        · rw [hacc]
          simp
        · rw [htot]
          simp only [List.map_cons, List.sum_cons]
          ring
        · intro it hit
          rcases List.mem_cons.mp hit with h1 | h1
          · rw [h1]
            exact ⟨rfl, rfl⟩
          · exact hall it h1

/-- Replacing a product by a version with non-negative stock keeps all
stocks non-negative. -/
theorem nonneg_setProduct {db : DB} {p' : Product} (hNN : ∀ p ∈ db.products, 0 ≤ p.stock)
    (hp' : 0 ≤ p'.stock) : ∀ r ∈ (setProduct db p').products, 0 ≤ r.stock := by
  intro r hr
  obtain ⟨q, hq, hfq⟩ := List.mem_map.mp hr
  by_cases h : (q.id == p'.id) = true
  · rw [if_pos h] at hfq
    rw [← hfq]
    exact hp'
  · rw [if_neg h] at hfq
    rw [← hfq]
    exact hNN q hq

/-- The item loop never drives any stock negative. -/
theorem processSaleItems_nonneg {tid uid sid : Nat} :
    ∀ (items : List SaleItemInput) (db : DB) (total : ℚ) (acc : List SaleItem)
      (db' : DB) (total' : ℚ) (acc' : List SaleItem),
      processSaleItems tid uid sid items db total acc = .ok (db', total', acc') →
      (∀ p ∈ db.products, 0 ≤ p.stock) → ∀ p ∈ db'.products, 0 ≤ p.stock := by
  intro items
  induction items with
  | nil =>
    intro db total acc db' total' acc' h hNN
    rw [processSaleItems_nil] at h
    simp only [Except.ok.injEq, Prod.mk.injEq] at h
    rw [← h.1]
    exact hNN
  | cons item rest ih =>
    intro db total acc db' total' acc' h hNN
    rw [processSaleItems_cons] at h
    split at h
    · simp at h
    · rename_i product hget
      split at h
      · simp at h
      · rename_i hstock
        refine ih _ _ _ _ _ _ h ?_
        refine nonneg_setProduct hNN ?_
        show (0 : Int) ≤ product.stock - item.quantity
        simp only [not_lt] at hstock
        omega

/-- `remove_stock` without the override on insufficient stock: the typed
error carries the product name, the requested quantity and the available
stock. -/
theorem remove_stock_insufficient (uid : Option Nat) (r n : Option String)
    {db : DB} {pid : Nat} {q : Int} {tid : Nat} {p : Product}
    (hget : getProduct db pid tid = some p) (hq : 0 < q) (hlt : p.stock < q) :
    remove_stock db pid q tid uid r n false =
      .error (.insufficient_stock p.name q p.stock) := by
  unfold remove_stock remove_stock_with
  rw [if_neg (by omega)]
  simp only [hget]
  rw [if_pos ⟨by simp, hlt⟩]

/-- Full case analysis of `create_sale` on a request with two line items
referencing the same product: the intra-sale checks are sequential and
cumulative. -/
theorem two_item_sale (uid : Nat) (q1 q2 : Int) (pr1 pr2 : ℚ) (pm : String)
    (nts : Option String) {db : DB} {tid pid : Nat} {p : Product}
    (hget : getProduct db pid tid = some p) :
    (p.stock < q1 →
        create_sale db tid uid ⟨pm, nts, [⟨pid, q1, pr1⟩, ⟨pid, q2, pr2⟩]⟩ =
          .error (.insufficient_stock p.name q1 p.stock)) ∧
    (¬p.stock < q1 → p.stock - q1 < q2 →
        create_sale db tid uid ⟨pm, nts, [⟨pid, q1, pr1⟩, ⟨pid, q2, pr2⟩]⟩ =
          .error (.insufficient_stock p.name q2 (p.stock - q1))) ∧
    (¬p.stock < q1 → ¬p.stock - q1 < q2 →
        ∃ db' s, create_sale db tid uid ⟨pm, nts, [⟨pid, q1, pr1⟩, ⟨pid, q2, pr2⟩]⟩ =
            .ok (db', s) ∧
          getProduct db' pid tid = some { p with stock := p.stock - q1 - q2 }) := by
  have hget0 : getProduct { db with next_sale_id := db.next_sale_id + 1 } pid tid
      = some p := hget
  have hget1 : getProduct
      (saleStep tid uid db.next_sale_id { db with next_sale_id := db.next_sale_id + 1 } p
        ⟨pid, q1, pr1⟩) pid tid = some { p with stock := p.stock - q1 } :=
    getProduct_setProduct { p with stock := p.stock - q1 } hget0 rfl rfl
  refine ⟨?_, ?_, ?_⟩
  · intro hc
    simp only [create_sale, processSaleItems_cons, hget0]
    rw [if_pos hc]
  · intro hc1 hc2
    simp only [create_sale, processSaleItems_cons, hget0]
    rw [if_neg hc1]
    simp only [processSaleItems_cons, hget1]
    rw [if_pos (show ({ p with stock := p.stock - q1 } : Product).stock < q2 from hc2)]
  · intro hc1 hc2
    simp only [create_sale, processSaleItems_cons, hget0]
    rw [if_neg hc1]
    simp only [processSaleItems_cons, hget1]
    rw [if_neg (show ¬({ p with stock := p.stock - q1 } : Product).stock < q2 from hc2)]
    simp only [processSaleItems_nil]
    refine ⟨_, _, rfl, ?_⟩
    exact getProduct_setProduct { p with stock := p.stock - q1 - q2 } hget1 rfl rfl

/-- Equation lemma: the empty annulment loop. -/
theorem annulItems_nil (tid : Nat) (uid : Option Nat) (sid : Nat) (db : DB) :
    annulItems tid uid sid [] db = .ok db := rfl

/-- Equation lemma: one pass of the annulment loop. -/
theorem annulItems_cons (tid : Nat) (uid : Option Nat) (sid : Nat) (item : SaleItem)
    (rest : List SaleItem) (db : DB) :
    annulItems tid uid sid (item :: rest) db =
      match db.products.find? (fun p => p.id == item.product_id) with
      | none => .error (.generic_error "item.product is missing")
      | some product =>
        annulItems tid uid sid rest (annulStep tid uid sid db product item) := rfl

/-- The annulment loop only touches products and movements. -/
theorem annulItems_frame {tid : Nat} {uid : Option Nat} {sid : Nat} :
    ∀ (items : List SaleItem) (db db' : DB),
      annulItems tid uid sid items db = .ok db' →
      db'.alerts = db.alerts ∧ db'.sales = db.sales ∧
        db'.sale_items = db.sale_items ∧ db'.next_sale_id = db.next_sale_id := by
  intro items
  induction items with
  | nil =>
    intro db db' h
    rw [annulItems_nil] at h
    simp only [Except.ok.injEq] at h
    rw [← h]
    exact ⟨rfl, rfl, rfl, rfl⟩
  | cons item rest ih =>
    intro db db' h
    rw [annulItems_cons] at h
    split at h
    · simp at h
    · obtain ⟨h1, h2, h3, h4⟩ := ih _ _ h
      exact ⟨h1, h2, h3, h4⟩

/-- A one-product sample state: product `P` (id 1, tenant 1) with stock 10
and minimum stock 5. -/
def dbS : DB :=
  { products := [{ id := 1, tenant_id := 1, name := "P", price := 10, cost := some 5,
                   stock := 10, min_stock := 5 }]
    movements := []
    alerts := []
    sales := []
    sale_items := []
    next_sale_id := 1 }

/-- C1: `create_sale` is all-or-nothing.  First conjunct: any raise inside
the call makes the whole transaction roll back — the database after the
call is exactly the database before it (no Sale row, no SaleItem rows, no
movements, stock untouched), and nothing is returned.  Second conjunct: in
particular, a sale whose two items reference the same product with total
quantity exceeding its stock always raises and persists nothing. -/
theorem create_sale_all_or_nothing :
    (∀ (db : DB) (tid uid : Nat) (inp : SaleInput) (e : Err),
        create_sale db tid uid inp = .error e →
        runTx db (create_sale db tid uid inp) = (db, none)) ∧
    (∀ (db : DB) (tid uid pid : Nat) (q1 q2 : Int) (pr1 pr2 : ℚ) (pm : String)
       (nts : Option String) (p : Product),
       getProduct db pid tid = some p → p.stock < q1 + q2 →
       ∃ e, create_sale db tid uid ⟨pm, nts, [⟨pid, q1, pr1⟩, ⟨pid, q2, pr2⟩]⟩ = .error e ∧
         runTx db (create_sale db tid uid ⟨pm, nts, [⟨pid, q1, pr1⟩, ⟨pid, q2, pr2⟩]⟩) =
           (db, none)) := by
  constructor
  · intro db tid uid inp e h
    simp [runTx, h]
  · intro db tid uid pid q1 q2 pr1 pr2 pm nts p hget hsum
    obtain ⟨h1, h2, _⟩ := two_item_sale uid q1 q2 pr1 pr2 pm nts hget
    by_cases hc : p.stock < q1
    · exact ⟨_, h1 hc, by simp [runTx, h1 hc]⟩
    · have hlt2 : p.stock - q1 < q2 := by omega
      exact ⟨_, h2 hc hlt2, by simp [runTx, h2 hc hlt2]⟩

theorem create_sale_all_or_nothing_witness :
    runTx dbS (create_sale dbS 1 7 ⟨"cash", none, [⟨1, 6, 10⟩, ⟨1, 5, 10⟩]⟩) =
      (dbS, none) := by
  obtain ⟨e, he, hrun⟩ := create_sale_all_or_nothing.2 dbS 1 7 1 6 5 10 10 "cash" none
    { id := 1, tenant_id := 1, name := "P", price := 10, cost := some 5,
      stock := 10, min_stock := 5 } rfl (by decide)
  exact hrun

/-- C2: no oversell.  With `allow_negative = false`, a successful
`remove_stock` keeps all stocks non-negative, and so does a successful
`create_sale`; a `remove_stock` whose decrement would go below zero raises
`InsufficientStock` carrying the product name, the requested quantity and
the available stock, and the transaction leaves the database unchanged (no
stock change, no movement). -/
theorem no_oversell :
    (∀ (db : DB) (pid : Nat) (q : Int) (tid : Nat) (uid : Option Nat) (r n : Option String)
       (db' : DB) (m : InventoryMovement),
       remove_stock db pid q tid uid r n false = .ok (db', m) →
       (∀ p ∈ db.products, 0 ≤ p.stock) → ∀ p ∈ db'.products, 0 ≤ p.stock) ∧
    (∀ (db : DB) (tid uid : Nat) (inp : SaleInput) (db' : DB) (s : Sale),
       create_sale db tid uid inp = .ok (db', s) →
       (∀ p ∈ db.products, 0 ≤ p.stock) → ∀ p ∈ db'.products, 0 ≤ p.stock) ∧
    (∀ (db : DB) (pid : Nat) (q : Int) (tid : Nat) (uid : Option Nat) (r n : Option String)
       (p : Product), getProduct db pid tid = some p → 0 < q → p.stock < q →
       remove_stock db pid q tid uid r n false =
         .error (.insufficient_stock p.name q p.stock) ∧
       runTx db (remove_stock db pid q tid uid r n false) = (db, none)) := by
  refine ⟨?_, ?_, ?_⟩
  · intro db pid q tid uid r n db' m h hNN
    obtain ⟨product, hget, hq, hok, hm, hdb⟩ := remove_stock_ok h
    subst hdb
    intro p hp
    rw [cca_products] at hp
    refine nonneg_setProduct hNN ?_ p hp
    show (0 : Int) ≤ product.stock - q
    have := hok rfl
    omega
  · intro db tid uid inp db' s h hNN
    simp only [create_sale] at h
    split at h
    · simp at h
    · rename_i res db1 total items heq
      simp only [Except.ok.injEq, Prod.mk.injEq] at h
      obtain ⟨hdb, hs⟩ := h
      rw [← hdb]
      intro p hp
      exact processSaleItems_nonneg _ _ _ _ _ _ _ heq hNN p hp
  · intro db pid q tid uid r n p hget hq hlt
    have he := remove_stock_insufficient uid r n hget hq hlt
    exact ⟨he, by simp [runTx, he]⟩

theorem no_oversell_witness :
    remove_stock dbS 1 12 1 none none none false =
      .error (.insufficient_stock "P" 12 10) ∧
    runTx dbS (remove_stock dbS 1 12 1 none none none false) = (dbS, none) :=
  no_oversell.2.2 dbS 1 12 1 none none none
    { id := 1, tenant_id := 1, name := "P", price := 10, cost := some 5,
      stock := 10, min_stock := 5 } rfl (by decide) (by decide)

/-- C8: intra-sale serial semantics.  When one `create_sale` call contains
two items for the same product, the second item's stock check runs against
the stock already reduced by the first: if it fails, the typed error
reports the remaining stock `p.stock - q1` as the available quantity, and
if it passes, the final stock is the cumulative `p.stock - q1 - q2`. -/
theorem intra_sale_serial :
    ∀ (db : DB) (tid uid pid : Nat) (q1 q2 : Int) (pr1 pr2 : ℚ) (pm : String)
      (nts : Option String) (p : Product),
      getProduct db pid tid = some p → q1 ≤ p.stock →
      (p.stock - q1 < q2 →
          create_sale db tid uid ⟨pm, nts, [⟨pid, q1, pr1⟩, ⟨pid, q2, pr2⟩]⟩ =
            .error (.insufficient_stock p.name q2 (p.stock - q1))) ∧
      (q2 ≤ p.stock - q1 →
          ∃ db' s, create_sale db tid uid ⟨pm, nts, [⟨pid, q1, pr1⟩, ⟨pid, q2, pr2⟩]⟩ =
              .ok (db', s) ∧
            getProduct db' pid tid = some { p with stock := p.stock - q1 - q2 }) := by
  intro db tid uid pid q1 q2 pr1 pr2 pm nts p hget hq1
  obtain ⟨h1, h2, h3⟩ := two_item_sale uid q1 q2 pr1 pr2 pm nts hget
  constructor
  · intro hlt
    exact h2 (not_lt.mpr hq1) hlt
  · intro hle
    exact h3 (not_lt.mpr hq1) (not_lt.mpr hle)

theorem intra_sale_serial_witness :
    create_sale dbS 1 7 ⟨"cash", none, [⟨1, 6, 10⟩, ⟨1, 5, 10⟩]⟩ =
      .error (.insufficient_stock "P" 5 4) := by
  have h := intra_sale_serial dbS 1 7 1 6 5 10 10 "cash" none
    { id := 1, tenant_id := 1, name := "P", price := 10, cost := some 5,
      stock := 10, min_stock := 5 } rfl (by decide)
  exact h.1 (by decide)

/-- C10: the sale paths never touch the alert table.  Whatever the outcome,
`create_sale` and `annul_sale` leave `alerts` exactly as it was — stock
alerts are created or resolved only by the three stock-mutation
operations. -/
theorem sale_paths_alert_frame :
    ∀ (db : DB) (tid uid : Nat) (inp : SaleInput) (sid tid2 uid2 : Nat),
      ((runTx db (create_sale db tid uid inp)).1).alerts = db.alerts ∧
      ((runTx db (annul_sale db sid tid2 uid2)).1).alerts = db.alerts := by
  intro db tid uid inp sid tid2 uid2
  constructor
  · rcases hres : create_sale db tid uid inp with e | ⟨db', s⟩
    · simp [runTx, hres]
    · simp only [runTx]
      simp only [create_sale] at hres
      split at hres
      · simp at hres
      · rename_i res db1 total items heq
        simp only [Except.ok.injEq, Prod.mk.injEq] at hres
        obtain ⟨hdb, _⟩ := hres
        rw [← hdb]
        exact (processSaleItems_frame _ _ _ _ _ _ _ heq).1
  · rcases hres : annul_sale db sid tid2 uid2 with e | ⟨db', os⟩
    · simp [runTx, hres]
    · simp only [runTx]
      unfold annul_sale at hres
      split at hres
      · simp only [Except.ok.injEq, Prod.mk.injEq] at hres
        rw [← hres.1]
      · rename_i sale hgetS
        split at hres
        · simp at hres
        · split at hres
          · simp at hres
          · rename_i db1 hann
            dsimp only at hres
            simp only [Except.ok.injEq, Prod.mk.injEq] at hres
            obtain ⟨hdb, _⟩ := hres
            rw [← hdb]
            exact (annulItems_frame _ _ _ hann).1

/-- `getSale` restricted: the sale row `annul_sale` loads. -/
theorem annul_sale_already_annulled (uid : Nat) {db : DB} {sid tid : Nat} {sale : Sale}
    (hgetS : getSale db sid tid = some sale) (hstat : sale.status = .annulled) :
    annul_sale db sid tid uid = .error (.generic_error "La venta ya ha sido anulada") := by
  unfold annul_sale
  simp only [hgetS]
  rw [if_pos (by simp [hstat])]

/-- Classifier: is the outcome the typed `InvalidOperation`
(`InvalidStockOperationException`) error? -/
def isInvalidOperationError {α : Type} : Except Err α → Bool
  | .error (.invalid_stock_operation _) => true
  | _ => false

/-- A state holding an already-annulled sale #1 of product 1. -/
def dbAnn : DB :=
  { products := [{ id := 1, tenant_id := 1, name := "P", price := 10, cost := some 5,
                   stock := 10, min_stock := 5 }]
    movements := []
    alerts := []
    sales := [{ id := 1, tenant_id := 1, user_id := some 7, total_amount := 30,
                payment_method := "cash", status := .annulled, notes := none }]
    sale_items := [{ sale_id := 1, product_id := 1, quantity := 3, unit_price := 10,
                     subtotal := 30 }]
    next_sale_id := 2 }

/-- C6 counterexample: annulling the already-annulled sale of `dbAnn` is
rejected, but with a plain untyped `Exception`
(`raise Exception("La venta ya ha sido anulada")` in the source), not the
typed `InvalidOperation` error the claim names. -/
theorem annul_double_error_untyped :
    annul_sale dbAnn 1 1 1 = .error (.generic_error "La venta ya ha sido anulada") ∧
    isInvalidOperationError (annul_sale dbAnn 1 1 1) = false := by
  constructor
  · rfl
  · rfl

/-- C6 (amended): the four stock preconditions — non-positive quantity on
`add_stock`/`remove_stock`, negative target on `adjust_stock`, no-op
adjustment — are rejected before any write with the typed
`InvalidOperation` error and the transaction leaves the database unchanged
(no stock change, no movement, no alert); `annul_sale` on an
already-annulled sale is likewise rejected before any write and never
double-reverts stock, but with an untyped generic `Exception` instead of
the typed `InvalidOperation`. -/
theorem invalid_operation_rejections :
    (∀ (db : DB) (pid : Nat) (q : Int) (tid : Nat) (uid : Option Nat) (c : Option ℚ)
       (r n : Option String), q ≤ 0 →
       add_stock db pid q tid uid c r n =
         .error (.invalid_stock_operation "La cantidad debe ser mayor a 0") ∧
       runTx db (add_stock db pid q tid uid c r n) = (db, none)) ∧
    (∀ (db : DB) (pid : Nat) (q : Int) (tid : Nat) (uid : Option Nat) (r n : Option String)
       (an : Bool), q ≤ 0 →
       remove_stock db pid q tid uid r n an =
         .error (.invalid_stock_operation "La cantidad debe ser mayor a 0") ∧
       runTx db (remove_stock db pid q tid uid r n an) = (db, none)) ∧
    (∀ (db : DB) (pid : Nat) (ns : Int) (tid : Nat) (uid : Option Nat)
       (reason : Option String), ns < 0 →
       adjust_stock db pid ns tid uid reason =
         .error (.invalid_stock_operation "El stock no puede ser negativo") ∧
       runTx db (adjust_stock db pid ns tid uid reason) = (db, none)) ∧
    (∀ (db : DB) (pid : Nat) (ns : Int) (tid : Nat) (uid : Option Nat)
       (reason : Option String) (p : Product),
       getProduct db pid tid = some p → 0 ≤ ns → ns = p.stock →
       adjust_stock db pid ns tid uid reason =
         .error (.invalid_stock_operation "El nuevo stock es igual al actual") ∧
       runTx db (adjust_stock db pid ns tid uid reason) = (db, none)) ∧
    (∀ (db : DB) (sid tid uid : Nat) (sale : Sale),
       getSale db sid tid = some sale → sale.status = .annulled →
       annul_sale db sid tid uid =
         .error (.generic_error "La venta ya ha sido anulada") ∧
       runTx db (annul_sale db sid tid uid) = (db, none)) := by
  refine ⟨?_, ?_, ?_, ?_, ?_⟩
  · intro db pid q tid uid c r n hq
    have he : add_stock db pid q tid uid c r n =
        .error (.invalid_stock_operation "La cantidad debe ser mayor a 0") := by
      unfold add_stock add_stock_with
      rw [if_pos hq]
    exact ⟨he, by simp [runTx, he]⟩
  · intro db pid q tid uid r n an hq
    have he : remove_stock db pid q tid uid r n an =
        .error (.invalid_stock_operation "La cantidad debe ser mayor a 0") := by
      unfold remove_stock remove_stock_with
      rw [if_pos hq]
    exact ⟨he, by simp [runTx, he]⟩
  · intro db pid ns tid uid reason hns
    have he : adjust_stock db pid ns tid uid reason =
        .error (.invalid_stock_operation "El stock no puede ser negativo") := by
      unfold adjust_stock adjust_stock_with
      rw [if_pos hns]
    exact ⟨he, by simp [runTx, he]⟩
  · intro db pid ns tid uid reason p hget hns hstk
    have he : adjust_stock db pid ns tid uid reason =
        .error (.invalid_stock_operation "El nuevo stock es igual al actual") := by
      unfold adjust_stock adjust_stock_with
      rw [if_neg (by omega)]
      simp only [hget]
      rw [if_pos (show ns - p.stock = 0 by omega)]
    exact ⟨he, by simp [runTx, he]⟩
  · intro db sid tid uid sale hgetS hstat
    have he := annul_sale_already_annulled uid hgetS hstat
    exact ⟨he, by simp [runTx, he]⟩

theorem invalid_operation_rejections_witness :
    (add_stock dbS 1 0 1 none none none none =
        .error (.invalid_stock_operation "La cantidad debe ser mayor a 0") ∧
      runTx dbS (add_stock dbS 1 0 1 none none none none) = (dbS, none)) ∧
    (annul_sale dbAnn 1 1 1 =
        .error (.generic_error "La venta ya ha sido anulada") ∧
      runTx dbAnn (annul_sale dbAnn 1 1 1) = (dbAnn, none)) := by
  obtain ⟨h1, _, _, _, h5⟩ := invalid_operation_rejections
  refine ⟨h1 dbS 1 0 1 none none none none (by decide), ?_⟩
  exact h5 dbAnn 1 1 1
    { id := 1, tenant_id := 1, user_id := some 7, total_amount := 30,
      payment_method := "cash", status := .annulled, notes := none } rfl rfl

/-- The state `add_stock dbS 1 5 1` commits when the alert step succeeds. -/
def dbS_add5 : DB :=
  { products := [{ id := 1, tenant_id := 1, name := "P", price := 10, cost := some 5,
                   stock := 15, min_stock := 5 }]
    movements := [{ tenant_id := 1, product_id := 1, user_id := none,
                    movement_type := .entry, quantity := 5, stock_before := 10,
                    stock_after := 15, unit_cost := none, reference := none,
                    notes := none }]
    alerts := []
    sales := []
    sale_items := []
    next_sale_id := 1 }

/-- C9 counterexample: the source has no `try/except` around the awaited
alert-bookkeeping call, so a failure raised inside it propagates before
`commit` is reached.  At this concrete input the stock check and movement
write succeed (third conjunct: the same call with the normal alert step
commits), yet when the alert step raises, the whole call fails with that
error and the transaction rolls back — no movement is returned and the
stock mutation is not persisted, contradicting the claim that alert
failures are logged, swallowed, and never block the primary mutation. -/
theorem alert_failure_aborts_add_stock :
    add_stock_with (fun _ _ _ => .error (.generic_error "alert bookkeeping failure"))
        dbS 1 5 1 none none none none =
      .error (.generic_error "alert bookkeeping failure") ∧
    runTx dbS
        (add_stock_with (fun _ _ _ => .error (.generic_error "alert bookkeeping failure"))
          dbS 1 5 1 none none none none) = (dbS, none) ∧
    add_stock dbS 1 5 1 none none none none =
      .ok (dbS_add5,
        { tenant_id := 1, product_id := 1, user_id := none, movement_type := .entry,
          quantity := 5, stock_before := 10, stock_after := 15, unit_cost := none,
          reference := none, notes := none }) := by
  refine ⟨rfl, rfl, ?_⟩
  rfl

/-- C9 (amended): alert bookkeeping failures are fatal to the call.  For
each of `add_stock`, `remove_stock` and `adjust_stock`, if the awaited
alert creation/resolution step raises, the raise propagates before
`commit`: the operation returns that error and the transaction rolls the
whole call back — the stock update and its movement are not persisted and
no movement is returned. -/
theorem alert_failure_fatal :
    (∀ (st : AlertStep) (e : Err) (db : DB) (pid : Nat) (q : Int) (tid : Nat)
       (uid : Option Nat) (c : Option ℚ) (r n : Option String) (product : Product),
       (∀ d p2, st d p2 tid = .error e) →
       getProduct db pid tid = some product → 0 < q →
       add_stock_with st db pid q tid uid c r n = .error e ∧
       runTx db (add_stock_with st db pid q tid uid c r n) = (db, none)) ∧
    (∀ (st : AlertStep) (e : Err) (db : DB) (pid : Nat) (q : Int) (tid : Nat)
       (uid : Option Nat) (r n : Option String) (an : Bool) (product : Product),
       (∀ d p2, st d p2 tid = .error e) →
       getProduct db pid tid = some product → 0 < q →
       ¬(¬an = true ∧ product.stock < q) →
       remove_stock_with st db pid q tid uid r n an = .error e ∧
       runTx db (remove_stock_with st db pid q tid uid r n an) = (db, none)) ∧
    (∀ (st : AlertStep) (e : Err) (db : DB) (pid : Nat) (ns : Int) (tid : Nat)
       (uid : Option Nat) (reason : Option String) (product : Product),
       (∀ d p2, st d p2 tid = .error e) →
       getProduct db pid tid = some product → 0 ≤ ns → ns - product.stock ≠ 0 →
       adjust_stock_with st st db pid ns tid uid reason = .error e ∧
       runTx db (adjust_stock_with st st db pid ns tid uid reason) = (db, none)) := by
  refine ⟨?_, ?_, ?_⟩
  · intro st e db pid q tid uid c r n product hst hget hq
    have he : add_stock_with st db pid q tid uid c r n = .error e := by
      unfold add_stock_with
      rw [if_neg (by omega)]
      simp only [hget, hst]
    exact ⟨he, by simp [runTx, he]⟩
  · intro st e db pid q tid uid r n an product hst hget hq hguard
    have he : remove_stock_with st db pid q tid uid r n an = .error e := by
      unfold remove_stock_with
      rw [if_neg (by omega)]
      simp only [hget]
      rw [if_neg hguard]
      simp only [hst]
    exact ⟨he, by simp [runTx, he]⟩
  · intro st e db pid ns tid uid reason product hst hget hns hdiff
    have he : adjust_stock_with st st db pid ns tid uid reason = .error e := by
      unfold adjust_stock_with
      rw [if_neg (by omega)]
      simp only [hget]
      rw [if_neg hdiff]
      by_cases hneg : ns - product.stock < 0
      · rw [if_pos hneg]
        simp only [hst]
      · rw [if_neg hneg]
        simp only [hst]
    exact ⟨he, by simp [runTx, he]⟩

theorem alert_failure_fatal_witness :
    add_stock_with (fun _ _ _ => .error (.generic_error "boom")) dbS 1 5 1
        none none none none = .error (.generic_error "boom") ∧
    runTx dbS (add_stock_with (fun _ _ _ => .error (.generic_error "boom")) dbS 1 5 1
        none none none none) = (dbS, none) :=
  alert_failure_fatal.1 (fun _ _ _ => .error (.generic_error "boom"))
    (.generic_error "boom") dbS 1 5 1 none none none none
    { id := 1, tenant_id := 1, name := "P", price := 10, cost := some 5,
      stock := 10, min_stock := 5 }
    (fun _ _ => rfl) rfl (by decide)

/-- C4: sale additivity.  For any sale successfully created by
`create_sale` (in a database whose existing sale items belong to
already-issued sale ids), each of its SaleItems has
`subtotal = quantity * unit_price` (the unit price being the
client-supplied snapshot), and the sale's `total_amount` is the sum of its
items' subtotals. -/
theorem sale_additivity :
    ∀ (db : DB) (tid uid : Nat) (inp : SaleInput) (db' : DB) (s : Sale),
      (∀ it ∈ db.sale_items, it.sale_id < db.next_sale_id) →
      create_sale db tid uid inp = .ok (db', s) →
      (∀ it ∈ saleItemsOf db' s.id, it.subtotal = (it.quantity : ℚ) * it.unit_price) ∧
      s.total_amount = ((saleItemsOf db' s.id).map SaleItem.subtotal).sum := by
  intro db tid uid inp db' s hfresh h
  simp only [create_sale] at h
  split at h
  · simp at h
  · rename_i res db1 total items heq
    simp only [Except.ok.injEq, Prod.mk.injEq] at h
    obtain ⟨hdb, hs⟩ := h
    obtain ⟨pre, hacc, htot, hall⟩ := processSaleItems_items _ _ _ _ _ _ _ heq
    have hsi : db1.sale_items = db.sale_items :=
      (processSaleItems_frame _ _ _ _ _ _ _ heq).2.2.1
    simp only [List.nil_append] at hacc
    subst hacc
    have hfilter : saleItemsOf db' s.id = items := by
      rw [← hdb, ← hs]
      show (db1.sale_items ++ items).filter (fun it => it.sale_id == db.next_sale_id) = items
      rw [List.filter_append]
      have h1 : db.sale_items.filter (fun it => it.sale_id == db.next_sale_id) = [] := by
        rw [List.filter_eq_nil_iff]
        intro a ha
        have := hfresh a ha
        simp only [beq_iff_eq]
        omega
      have h2 : items.filter (fun it => it.sale_id == db.next_sale_id) = items := by
        rw [List.filter_eq_self]
        intro a ha
        simp only [beq_iff_eq]
        exact (hall a ha).1
      rw [hsi, h1, h2, List.nil_append]
    rw [hfilter]
    refine ⟨fun it hit => (hall it hit).2, ?_⟩
    rw [← hs]
    show total = (items.map SaleItem.subtotal).sum
    rw [htot]
    ring

/-- The one-item sale request used by the C4 witness. -/
def inpC4 : SaleInput :=
  { payment_method := "cash"
    notes := none
    items := [⟨1, 2, (21/2 : ℚ)⟩] }

/-- The state after `create_sale dbS 1 7 inpC4`. -/
def dbC4' : DB :=
  { products := [{ id := 1, tenant_id := 1, name := "P", price := 10, cost := some 5,
                   stock := 8, min_stock := 5 }]
    movements := [{ tenant_id := 1, product_id := 1, user_id := some 7,
                    movement_type := .exit, quantity := -2, stock_before := 10,
                    stock_after := 8, unit_cost := some 5,
                    reference := some "VENTA #1",
                    notes := some "Venta realizada por el POS" }]
    alerts := []
    sales := [{ id := 1, tenant_id := 1, user_id := some 7, total_amount := 21,
                payment_method := "cash", status := .completed, notes := none }]
    sale_items := [{ sale_id := 1, product_id := 1, quantity := 2,
                     unit_price := (21/2 : ℚ), subtotal := 21 }]
    next_sale_id := 2 }

/-- The sale `create_sale dbS 1 7 inpC4` returns. -/
def saleC4 : Sale :=
  { id := 1, tenant_id := 1, user_id := some 7, total_amount := 21,
    payment_method := "cash", status := .completed, notes := none }

theorem sale_additivity_witness :
    (∀ it ∈ saleItemsOf dbC4' saleC4.id,
        it.subtotal = (it.quantity : ℚ) * it.unit_price) ∧
    saleC4.total_amount = ((saleItemsOf dbC4' saleC4.id).map SaleItem.subtotal).sum :=
  sale_additivity dbS 1 7 inpC4 dbC4' saleC4 (by decide) (by
    have h1 : getProduct { dbS with next_sale_id := dbS.next_sale_id + 1 } 1 1 =
        some { id := 1, tenant_id := 1, name := "P", price := 10, cost := some 5,
               stock := 10, min_stock := 5 } := rfl
    simp only [create_sale, inpC4, processSaleItems_cons, processSaleItems_nil, h1]
    rw [if_neg (by decide)]
    simp only [saleStep, setProduct, dbS, dbC4', saleC4]
    norm_num
    decide)

/-! ### Annulment accounting -/

/-- The stock of the product with primary key `pid`, if present. -/
def stockOf (db : DB) (pid : Nat) : Option Int :=
  (db.products.find? (fun p => p.id == pid)).map Product.stock

/-- The total quantity a list of sale items sold of product `pid`. -/
def itemsQty (items : List SaleItem) (pid : Nat) : Int :=
  ((items.filter (fun it => it.product_id == pid)).map SaleItem.quantity).sum

theorem itemsQty_nil (pid : Nat) : itemsQty [] pid = 0 := rfl

theorem itemsQty_cons (it : SaleItem) (rest : List SaleItem) (pid : Nat) :
    itemsQty (it :: rest) pid =
      (if (it.product_id == pid) = true then it.quantity else 0) + itemsQty rest pid := by
  unfold itemsQty
  by_cases h : (it.product_id == pid) = true
  · simp [List.filter_cons, h]
  · simp [List.filter_cons, h]

/-- One annulment pass adds `item.quantity` to the stock of the item's
product and leaves every other stock unchanged. -/
theorem stockOf_annulStep {db : DB} {item : SaleItem} {product : Product}
    (tid : Nat) (uid : Option Nat) (sid : Nat)
    (hfind : db.products.find? (fun p => p.id == item.product_id) = some product)
    (pid : Nat) :
    stockOf (annulStep tid uid sid db product item) pid =
      (stockOf db pid).map (fun st =>
        st + (if (item.product_id == pid) = true then item.quantity else 0)) := by
  have hpid := List.find?_some hfind
  have hpid' : product.id = item.product_id := by simpa using hpid
  show ((db.products.map (fun q =>
      if q.id == ({ product with stock := product.stock + item.quantity } : Product).id
      then { product with stock := product.stock + item.quantity } else q)).find?
        (fun p => p.id == pid)).map Product.stock = _
  rw [find?_id_setProduct]
  simp only [stockOf]
  by_cases hc : (item.product_id == pid) = true
  · have hc' : item.product_id = pid := by simpa using hc
    subst hc'
    rw [hfind]
    simp
  · have hc' : item.product_id ≠ pid := by simpa using hc
    cases hq : db.products.find? (fun p => p.id == pid) with
    | none => simp
    | some q =>
      have hqid : q.id = pid := by simpa using List.find?_some hq
      have h1 : q.id ≠ product.id := by
        rw [hqid, hpid']
        exact fun hcon => hc' hcon.symm
      simp [h1, hc]

/-- The annulment loop increments each product's stock by exactly the total
quantity the sale's items sold of it. -/
theorem annulItems_stock {tid : Nat} {uid : Option Nat} {sid : Nat} :
    ∀ (items : List SaleItem) (db db' : DB),
      annulItems tid uid sid items db = .ok db' →
      ∀ pid, stockOf db' pid =
        (stockOf db pid).map (fun st => st + itemsQty items pid) := by
  intro items
  induction items with
  | nil =>
    intro db db' h pid
    rw [annulItems_nil] at h
    simp only [Except.ok.injEq] at h
    rw [← h, itemsQty_nil]
    cases stockOf db pid <;> simp
  | cons item rest ih =>
    intro db db' h pid
    rw [annulItems_cons] at h
    split at h
    · simp at h
    · rename_i product hfind
      rw [ih _ _ h pid, stockOf_annulStep tid uid sid hfind pid, itemsQty_cons]
      cases stockOf db pid with
      | none => simp
      | some st =>
        simp only [Option.map_some', Option.some.injEq]
        ring

/-- The annulment loop appends one ADJUSTMENT movement per item, in order,
each carrying `quantity = +item.quantity` for the item's product. -/
theorem annulItems_movements {tid : Nat} {uid : Option Nat} {sid : Nat} :
    ∀ (items : List SaleItem) (db db' : DB),
      annulItems tid uid sid items db = .ok db' →
      ∃ adjs, db'.movements = db.movements ++ adjs ∧
        List.Forall₂ (fun (it : SaleItem) (m : InventoryMovement) =>
          m.movement_type = .adjustment ∧ m.quantity = it.quantity ∧
          m.product_id = it.product_id) items adjs := by
  intro items
  induction items with
  | nil =>
    intro db db' h
    rw [annulItems_nil] at h
    simp only [Except.ok.injEq] at h
    exact ⟨[], by simp [← h], List.Forall₂.nil⟩
  | cons item rest ih =>
    intro db db' h
    rw [annulItems_cons] at h
    split at h
    · simp at h
    · rename_i product hfind
      have hpid : product.id = item.product_id := by simpa using List.find?_some hfind
      obtain ⟨adjs, hmov, hfa⟩ := ih _ _ h
      refine ⟨{ tenant_id := tid, product_id := product.id, user_id := uid,
                movement_type := .adjustment, quantity := item.quantity,
                stock_before := product.stock,
                stock_after := product.stock + item.quantity,
                unit_cost := product.cost,
                reference := some ("ANULACIÓN #" ++ toString sid),
                notes := some "Anulación de venta realizada" } :: adjs, ?_, ?_⟩
      · rw [hmov]
        show (db.movements ++ [_]) ++ adjs = _
        simp
      · exact List.Forall₂.cons ⟨rfl, rfl, hpid⟩ hfa

/-- C5: annulment is an exact compensating reversal.  Annulling a completed
sale returns the sale with status ANNULLED; it rewrites only that sale row
(deleting neither the Sale nor its SaleItems — the item table is
untouched); it appends exactly one ADJUSTMENT movement per sale item with
`quantity = +item.quantity`; and each product's stock grows by exactly the
total quantity that sale sold of it. -/
theorem annul_sale_reversal :
    ∀ (db : DB) (sid tid uid : Nat) (sale : Sale) (db' : DB) (s' : Sale),
      getSale db sid tid = some sale → sale.status = .completed →
      annul_sale db sid tid uid = .ok (db', some s') →
      s' = { sale with status := .annulled } ∧
      db'.sales = db.sales.map
        (fun t => if t.id == sid then { sale with status := SaleStatus.annulled } else t) ∧
      db'.sale_items = db.sale_items ∧
      (∃ adjs, db'.movements = db.movements ++ adjs ∧
        List.Forall₂ (fun (it : SaleItem) (m : InventoryMovement) =>
          m.movement_type = .adjustment ∧ m.quantity = it.quantity ∧
          m.product_id = it.product_id) (saleItemsOf db sid) adjs) ∧
      (∀ pid, stockOf db' pid =
        (stockOf db pid).map (fun st => st + itemsQty (saleItemsOf db sid) pid)) := by
  intro db sid tid uid sale db' s' hgetS hstat hok
  have hsid : sale.id = sid := by
    have := List.find?_some hgetS
    simp only [Bool.and_eq_true, beq_iff_eq] at this
    exact this.1
  unfold annul_sale at hok
  simp only [hgetS] at hok
  rw [if_neg (by simp [hstat])] at hok
  split at hok
  · simp at hok
  · rename_i db1 hann
    simp only [Except.ok.injEq, Prod.mk.injEq, Option.some.injEq] at hok
    obtain ⟨hdb, hs'⟩ := hok
    have hframe := annulItems_frame _ _ _ hann
    refine ⟨hs'.symm, ?_, ?_, ?_, ?_⟩
    · rw [← hdb]
      show db1.sales.map (fun t => if t.id == sale.id then _ else t) = _
      rw [hframe.2.1, hsid]
    · rw [← hdb]
      show db1.sale_items = db.sale_items
      exact hframe.2.2.1
    · obtain ⟨adjs, hmov, hfa⟩ := annulItems_movements _ _ _ hann
      refine ⟨adjs, ?_, hfa⟩
      rw [← hdb]
      exact hmov
    · intro pid
      rw [← hdb]
      exact annulItems_stock _ _ _ hann pid

/-- The state of concrete scenario D just after the sale: product P at
stock 17, completed sale #1 of 3 units at $10. -/
def dbD : DB :=
  { products := [{ id := 1, tenant_id := 1, name := "P", price := 10, cost := some 5,
                   stock := 17, min_stock := 5 }]
    movements := []
    alerts := []
    sales := [{ id := 1, tenant_id := 1, user_id := some 7, total_amount := 30,
                payment_method := "cash", status := .completed, notes := none }]
    sale_items := [{ sale_id := 1, product_id := 1, quantity := 3, unit_price := 10,
                     subtotal := 30 }]
    next_sale_id := 2 }

/-- The state after `annul_sale dbD 1 1 7`: stock back to 20, sale
annulled, one compensating ADJUSTMENT movement. -/
def dbD' : DB :=
  { products := [{ id := 1, tenant_id := 1, name := "P", price := 10, cost := some 5,
                   stock := 20, min_stock := 5 }]
    movements := [{ tenant_id := 1, product_id := 1, user_id := some 7,
                    movement_type := .adjustment, quantity := 3, stock_before := 17,
                    stock_after := 20, unit_cost := some 5,
                    reference := some "ANULACIÓN #1",
                    notes := some "Anulación de venta realizada" }]
    alerts := []
    sales := [{ id := 1, tenant_id := 1, user_id := some 7, total_amount := 30,
                payment_method := "cash", status := .annulled, notes := none }]
    sale_items := [{ sale_id := 1, product_id := 1, quantity := 3, unit_price := 10,
                     subtotal := 30 }]
    next_sale_id := 2 }

/-- The completed sale of `dbD`. -/
def saleD : Sale :=
  { id := 1, tenant_id := 1, user_id := some 7, total_amount := 30,
    payment_method := "cash", status := .completed, notes := none }

theorem annul_sale_reversal_witness :
    ({ saleD with status := SaleStatus.annulled } : Sale) =
      { saleD with status := SaleStatus.annulled } ∧
    dbD'.sales = dbD.sales.map
      (fun t => if t.id == 1 then { saleD with status := SaleStatus.annulled } else t) ∧
    dbD'.sale_items = dbD.sale_items ∧
    (∃ adjs, dbD'.movements = dbD.movements ++ adjs ∧
      List.Forall₂ (fun (it : SaleItem) (m : InventoryMovement) =>
        m.movement_type = .adjustment ∧ m.quantity = it.quantity ∧
        m.product_id = it.product_id) (saleItemsOf dbD 1) adjs) ∧
    (∀ pid, stockOf dbD' pid =
      (stockOf dbD pid).map (fun st => st + itemsQty (saleItemsOf dbD 1) pid)) :=
  annul_sale_reversal dbD 1 1 7 saleD dbD' { saleD with status := SaleStatus.annulled }
    rfl rfl (by decide)

/-! ### The alert derivation layer -/

/-- An active alert of kind `k` for product `pid` in tenant `tid`. -/
def ActiveAlert (db : DB) (pid tid : Nat) (k : AlertType) : Prop :=
  ∃ a ∈ db.alerts, a.product_id = pid ∧ a.tenant_id = tid ∧
    a.status = AlertStatus.active ∧ a.alert_type = k

instance (db : DB) (pid tid : Nat) (k : AlertType) : Decidable (ActiveAlert db pid tid k) := by
  unfold ActiveAlert
  infer_instance

/-- The duplicate check of `_check_and_create_alerts` sees exactly the
active alerts of the product/tenant/kind. -/
theorem cca_guard_iff (db : DB) (pid tid : Nat) (k : AlertType) :
    (((alertsByProduct db pid tid).filter (fun a => a.status == AlertStatus.active)).any
      (fun a => a.alert_type == k)) = true ↔ ActiveAlert db pid tid k := by
  simp only [alertsByProduct, ActiveAlert, List.any_eq_true, List.mem_filter,
    Bool.and_eq_true, beq_iff_eq]
  constructor
  · rintro ⟨a, ⟨⟨ha, h1, h2⟩, h3⟩, h4⟩
    exact ⟨a, ha, h2, h1, h3, h4⟩
  · rintro ⟨a, ha, h1, h2, h3, h4⟩
    exact ⟨a, ⟨⟨ha, h2, h1⟩, h3⟩, h4⟩

/-- What `_check_and_create_alerts` does to the alert table, stated with
propositional guards. -/
theorem cca_alerts_eq (db : DB) (p : Product) (tid : Nat) :
    (check_and_create_alerts db p tid).alerts =
      if p.stock ≤ p.min_stock ∧ 0 < p.stock then
        (if ActiveAlert db p.id tid .low_stock then db.alerts
         else db.alerts ++ [lowStockAlert tid p])
      else if p.stock ≤ 0 then
        (if ActiveAlert db p.id tid .out_of_stock then db.alerts
         else db.alerts ++ [outOfStockAlert tid p])
      else db.alerts := by
  unfold check_and_create_alerts
  by_cases h1 : p.stock ≤ p.min_stock ∧ 0 < p.stock
  · rw [if_pos h1, if_pos h1]
    by_cases hg : ActiveAlert db p.id tid .low_stock
    · rw [if_pos ((cca_guard_iff db p.id tid .low_stock).mpr hg), if_pos hg]
    · rw [if_neg (fun hc => hg ((cca_guard_iff db p.id tid .low_stock).mp hc)), if_neg hg]
  · rw [if_neg h1, if_neg h1]
    by_cases h2 : p.stock ≤ 0
    · rw [if_pos h2, if_pos h2]
      by_cases hg : ActiveAlert db p.id tid .out_of_stock
      · rw [if_pos ((cca_guard_iff db p.id tid .out_of_stock).mpr hg), if_pos hg]
      · rw [if_neg (fun hc => hg ((cca_guard_iff db p.id tid .out_of_stock).mp hc)),
          if_neg hg]
    · rw [if_neg h2, if_neg h2]

theorem append_singleton_ne {α : Type} (l : List α) (x : α) : l ≠ l ++ [x] := by
  intro h
  simpa using congrArg List.length h

/-- `_check_and_create_alerts` creates a LOW_STOCK (resp. OUT_OF_STOCK)
alert — one new active row for the product — exactly when
`0 < stock ≤ min_stock` (resp. `stock ≤ 0`) and no active alert of that
kind exists for the product. -/
theorem cca_created_iff (db : DB) (p : Product) (tid : Nat) :
    ((∃ nw, (check_and_create_alerts db p tid).alerts = db.alerts ++ [nw] ∧
        nw.alert_type = .low_stock ∧ nw.status = .active ∧ nw.product_id = p.id ∧
        nw.tenant_id = tid) ↔
      (0 < p.stock ∧ p.stock ≤ p.min_stock ∧ ¬ActiveAlert db p.id tid .low_stock)) ∧
    ((∃ nw, (check_and_create_alerts db p tid).alerts = db.alerts ++ [nw] ∧
        nw.alert_type = .out_of_stock ∧ nw.status = .active ∧ nw.product_id = p.id ∧
        nw.tenant_id = tid) ↔
      (p.stock ≤ 0 ∧ ¬ActiveAlert db p.id tid .out_of_stock)) := by
  by_cases h1 : p.stock ≤ p.min_stock ∧ 0 < p.stock
  · by_cases hg : ActiveAlert db p.id tid .low_stock
    · have he : (check_and_create_alerts db p tid).alerts = db.alerts := by
        rw [cca_alerts_eq, if_pos h1, if_pos hg]
      constructor
      · rw [he]
        constructor
        · rintro ⟨nw, hnw, _⟩
          exact absurd hnw (append_singleton_ne _ _)
        · rintro ⟨_, _, hc⟩
          exact absurd hg hc
      · rw [he]
        constructor
        · rintro ⟨nw, hnw, _⟩
          exact absurd hnw (append_singleton_ne _ _)
        · rintro ⟨hc, _⟩
          omega
    · have he : (check_and_create_alerts db p tid).alerts =
          db.alerts ++ [lowStockAlert tid p] := by
        rw [cca_alerts_eq, if_pos h1, if_neg hg]
      constructor
      · rw [he]
        constructor
        · rintro ⟨nw, hnw, _⟩
          exact ⟨h1.2, h1.1, hg⟩
        · intro _
          exact ⟨lowStockAlert tid p, rfl, rfl, rfl, rfl, rfl⟩
      · rw [he]
        constructor
        · rintro ⟨nw, hnw, htype, _⟩
          have hnweq : nw = lowStockAlert tid p := by
            simpa using List.append_cancel_left hnw.symm
          exact absurd htype (by rw [hnweq]; simp [lowStockAlert])
        · rintro ⟨hc, _⟩
          omega
  · by_cases h2 : p.stock ≤ 0
    · by_cases hg : ActiveAlert db p.id tid .out_of_stock
      · have he : (check_and_create_alerts db p tid).alerts = db.alerts := by
          rw [cca_alerts_eq, if_neg h1, if_pos h2, if_pos hg]
        constructor
        · rw [he]
          constructor
          · rintro ⟨nw, hnw, _⟩
            exact absurd hnw (append_singleton_ne _ _)
          · rintro ⟨hc, _⟩
            omega
        · rw [he]
          constructor
          · rintro ⟨nw, hnw, _⟩
            exact absurd hnw (append_singleton_ne _ _)
          · rintro ⟨_, hc⟩
            exact absurd hg hc
      · have he : (check_and_create_alerts db p tid).alerts =
            db.alerts ++ [outOfStockAlert tid p] := by
          rw [cca_alerts_eq, if_neg h1, if_pos h2, if_neg hg]
        constructor
        · rw [he]
          constructor
          · rintro ⟨nw, hnw, htype, _⟩
            have hnweq : nw = outOfStockAlert tid p := by
              simpa using List.append_cancel_left hnw.symm
            exact absurd htype (by rw [hnweq]; simp [outOfStockAlert])
          · rintro ⟨hc, _⟩
            omega
        · rw [he]
          constructor
          · rintro ⟨nw, hnw, _⟩
            exact ⟨h2, hg⟩
          · intro _
            exact ⟨outOfStockAlert tid p, rfl, rfl, rfl, rfl, rfl⟩
    · have he : (check_and_create_alerts db p tid).alerts = db.alerts := by
        rw [cca_alerts_eq, if_neg h1, if_neg h2]
      constructor
      · rw [he]
        constructor
        · rintro ⟨nw, hnw, _⟩
          exact absurd hnw (append_singleton_ne _ _)
        · rintro ⟨hs1, hs2, _⟩
          exact absurd (And.intro hs2 hs1) h1
      · rw [he]
        constructor
        · rintro ⟨nw, hnw, _⟩
          exact absurd hnw (append_singleton_ne _ _)
        · rintro ⟨hc, _⟩
          exact absurd hc h2

/-- `resolveAlert` only ever touches the status. -/
theorem resolveAlert_fields (p : Product) (tid : Nat) (a : StockAlert) :
    (resolveAlert p tid a).product_id = a.product_id ∧
    (resolveAlert p tid a).tenant_id = a.tenant_id ∧
    (resolveAlert p tid a).alert_type = a.alert_type := by
  unfold resolveAlert
  repeat' split
  all_goals exact ⟨rfl, rfl, rfl⟩

/-- When the output of `resolveAlert` is still active. -/
theorem resolveAlert_active_iff (p : Product) (tid : Nat) (a : StockAlert) :
    (resolveAlert p tid a).status = AlertStatus.active ↔
      (a.status = AlertStatus.active ∧
        ¬(a.tenant_id = tid ∧ a.product_id = p.id ∧
          ((a.alert_type = .out_of_stock ∧ 0 < p.stock) ∨
           (a.alert_type = .low_stock ∧ p.min_stock < p.stock)))) := by
  unfold resolveAlert
  by_cases hm : (a.tenant_id == tid && a.product_id == p.id &&
      a.status == AlertStatus.active) = true
  · rw [if_pos hm]
    simp only [Bool.and_eq_true, beq_iff_eq] at hm
    obtain ⟨⟨hmt, hmp⟩, hma⟩ := hm
    by_cases hr1 : (a.alert_type == AlertType.out_of_stock) = true ∧ 0 < p.stock
    · rw [if_pos hr1]
      have hr1' : a.alert_type = AlertType.out_of_stock ∧ 0 < p.stock :=
        ⟨by simpa using hr1.1, hr1.2⟩
      constructor
      · intro hc
        exact absurd hc (by simp)
      · rintro ⟨_, hc⟩
        exact absurd ⟨hmt, hmp, Or.inl hr1'⟩ hc
    · rw [if_neg hr1]
      by_cases hr2 : (a.alert_type == AlertType.low_stock) = true ∧ p.min_stock < p.stock
      · rw [if_pos hr2]
        have hr2' : a.alert_type = AlertType.low_stock ∧ p.min_stock < p.stock :=
          ⟨by simpa using hr2.1, hr2.2⟩
        constructor
        · intro hc
          exact absurd hc (by simp)
        · rintro ⟨_, hc⟩
          exact absurd ⟨hmt, hmp, Or.inr hr2'⟩ hc
      · rw [if_neg hr2]
        constructor
        · intro _
          refine ⟨hma, ?_⟩
          rintro ⟨_, _, hor | hor⟩
          · exact hr1 ⟨by simp [hor.1], hor.2⟩
          · exact hr2 ⟨by simp [hor.1], hor.2⟩
        · intro _
          exact hma
  · rw [if_neg hm]
    simp only [Bool.and_eq_true, beq_iff_eq] at hm
    constructor
    · intro ha
      refine ⟨ha, ?_⟩
      rintro ⟨ht, hp, _⟩
      exact hm ⟨⟨ht, hp⟩, ha⟩
    · rintro ⟨ha, _⟩
      exact ha

/-- `_check_and_resolve_alerts` leaves an active alert for the product
exactly when it was active before and its resolution condition does not
hold. -/
theorem crs_active_iff (db : DB) (p : Product) (tid : Nat) (k : AlertType) :
    ActiveAlert (check_and_resolve_alerts db p tid) p.id tid k ↔
      (ActiveAlert db p.id tid k ∧
        ¬((k = .out_of_stock ∧ 0 < p.stock) ∨
          (k = .low_stock ∧ p.min_stock < p.stock))) := by
  constructor
  · rintro ⟨a', ha', hp', ht', hs', hk'⟩
    obtain ⟨a, ha, hfa⟩ := List.mem_map.mp ha'
    obtain ⟨hf1, hf2, hf3⟩ := resolveAlert_fields p tid a
    rw [← hfa] at hp' ht' hs' hk'
    rw [hf1] at hp'
    rw [hf2] at ht'
    rw [hf3] at hk'
    obtain ⟨hact, hnores⟩ := (resolveAlert_active_iff p tid a).mp hs'
    refine ⟨⟨a, ha, hp', ht', hact, hk'⟩, ?_⟩
    intro hres
    apply hnores
    refine ⟨ht', hp', ?_⟩
    rcases hres with ⟨hkk, hss⟩ | ⟨hkk, hss⟩
    · exact Or.inl ⟨by rw [hk', hkk], hss⟩
    · exact Or.inr ⟨by rw [hk', hkk], hss⟩
  · rintro ⟨⟨a, ha, hp', ht', hact, hk'⟩, hnores⟩
    refine ⟨resolveAlert p tid a, List.mem_map_of_mem _ ha, ?_, ?_, ?_, ?_⟩
    · rw [(resolveAlert_fields p tid a).1, hp']
    · rw [(resolveAlert_fields p tid a).2.1, ht']
    · rw [resolveAlert_active_iff]
      refine ⟨hact, ?_⟩
      rintro ⟨_, _, hor | hor⟩
      · exact hnores (Or.inl ⟨by rw [← hk', hor.1], hor.2⟩)
      · exact hnores (Or.inr ⟨by rw [← hk', hor.1], hor.2⟩)
    · rw [(resolveAlert_fields p tid a).2.2, hk']

/-- How many active alerts of kind `k` a list holds for product `pid`. -/
def countActive (al : List StockAlert) (pid : Nat) (k : AlertType) : Nat :=
  (al.filter (fun a => a.product_id == pid && a.status == AlertStatus.active &&
    a.alert_type == k)).length

/-- Alert uniqueness: at most one active alert per (product, kind) pair. -/
def AlertUnique (db : DB) : Prop := ∀ pid k, countActive db.alerts pid k ≤ 1

/-- Every alert references an existing product of its own tenant. -/
def AlertsRefOK (db : DB) : Prop :=
  ∀ a ∈ db.alerts, ∃ q ∈ db.products, q.id = a.product_id ∧ q.tenant_id = a.tenant_id

/-- The inductive invariant behind alert uniqueness. -/
def AInv (db : DB) : Prop := UniqueIds db ∧ AlertsRefOK db ∧ AlertUnique db

theorem countActive_append (al bl : List StockAlert) (pid : Nat) (k : AlertType) :
    countActive (al ++ bl) pid k = countActive al pid k + countActive bl pid k := by
  simp [countActive, List.filter_append]

theorem countActive_eq_zero_iff (al : List StockAlert) (pid : Nat) (k : AlertType) :
    countActive al pid k = 0 ↔
      ∀ a ∈ al, ¬(a.product_id = pid ∧ a.status = AlertStatus.active ∧
        a.alert_type = k) := by
  unfold countActive
  rw [List.length_eq_zero, List.filter_eq_nil_iff]
  constructor
  · intro h a ha hc
    exact h a ha (by simp [hc.1, hc.2.1, hc.2.2])
  · intro h a ha hb
    simp only [Bool.and_eq_true, beq_iff_eq] at hb
    exact h a ha ⟨hb.1.1, hb.1.2, hb.2⟩

theorem countActive_singleton_le (a : StockAlert) (pid : Nat) (k : AlertType) :
    countActive [a] pid k ≤ 1 := by
  unfold countActive
  rcases List.length_filter_le
    (fun a => a.product_id == pid && a.status == AlertStatus.active && a.alert_type == k)
    [a] with h
  simpa using h

theorem countActive_singleton_miss {a : StockAlert} {pid : Nat} {k : AlertType}
    (h : ¬(a.product_id = pid ∧ a.status = AlertStatus.active ∧ a.alert_type = k)) :
    countActive [a] pid k = 0 := by
  rw [countActive_eq_zero_iff]
  intro b hb
  rw [List.mem_singleton.mp hb]
  exact h

/-- A status-only rewrite can only lose active alerts. -/
theorem filter_map_length_le {α : Type} (f : α → α) (pr : α → Bool)
    (h : ∀ a, pr (f a) = true → pr a = true) (l : List α) :
    ((l.map f).filter pr).length ≤ (l.filter pr).length := by
  induction l with
  | nil => simp
  | cons a l ih =>
    simp only [List.map_cons, List.filter_cons]
    by_cases hfa : pr (f a) = true
    · rw [if_pos hfa, if_pos (h a hfa)]
      simpa using ih
    · rw [if_neg hfa]
      by_cases hpa : pr a = true
      · rw [if_pos hpa]
        exact Nat.le_succ_of_le ih
      · rw [if_neg hpa]
        exact ih

theorem countActive_resolve_le (p : Product) (tid : Nat) (al : List StockAlert)
    (pid : Nat) (k : AlertType) :
    countActive (al.map (resolveAlert p tid)) pid k ≤ countActive al pid k := by
  apply filter_map_length_le
  intro a hb
  simp only [Bool.and_eq_true, beq_iff_eq] at hb ⊢
  obtain ⟨⟨hb1, hb2⟩, hb3⟩ := hb
  obtain ⟨hf1, hf2, hf3⟩ := resolveAlert_fields p tid a
  refine ⟨⟨by rw [← hf1]; exact hb1, ?_⟩, by rw [← hf3]; exact hb3⟩
  have := (resolveAlert_active_iff p tid a).mp hb2
  exact this.1

/-- `AInv` reads only the product and alert tables. -/
theorem ainv_fields {db₁ db₂ : DB} (hp : db₂.products = db₁.products)
    (ha : db₂.alerts = db₁.alerts) (h : AInv db₁) : AInv db₂ := by
  obtain ⟨hU, hR, hA⟩ := h
  refine ⟨?_, ?_, ?_⟩
  · unfold UniqueIds
    rw [hp]
    exact hU
  · unfold AlertsRefOK
    rw [hp, ha]
    exact hR
  · unfold AlertUnique
    rw [ha]
    exact hA

/-- Replacing a stored row by one with the same id and tenant keeps every
alert's product reference covered. -/
theorem refOK_setProduct {db : DB} {product p' : Product}
    (hU : UniqueIds db) (hmem : product ∈ db.products)
    (hid : p'.id = product.id) (htid : p'.tenant_id = product.tenant_id)
    (a : StockAlert) (h : ∃ q ∈ db.products, q.id = a.product_id ∧ q.tenant_id = a.tenant_id) :
    ∃ r ∈ (setProduct db p').products, r.id = a.product_id ∧ r.tenant_id = a.tenant_id := by
  obtain ⟨q, hq, hq1, hq2⟩ := h
  by_cases hc : (q.id == p'.id) = true
  · have hqe : q = product :=
      uniqueIds_eq hU hq hmem (by rw [(by simpa using hc : q.id = p'.id), hid])
    refine ⟨p', List.mem_map.mpr ⟨q, hq, by simp [hc]⟩, ?_, ?_⟩
    · rw [hid, ← hqe]
      exact hq1
    · rw [htid, ← hqe]
      exact hq2
  · exact ⟨q, List.mem_map.mpr ⟨q, hq, by simp [hc]⟩, hq1, hq2⟩

/-- The ORM row replacement preserves the alert invariant. -/
theorem ainv_setProduct {db : DB} {product p' : Product}
    (hmem : product ∈ db.products) (hid : p'.id = product.id)
    (htid : p'.tenant_id = product.tenant_id) (h : AInv db) :
    AInv (setProduct db p') := by
  obtain ⟨hU, hR, hA⟩ := h
  refine ⟨?_, ?_, ?_⟩
  · unfold UniqueIds
    rw [setProduct_ids]
    exact hU
  · intro a ha
    exact refOK_setProduct hU hmem hid htid a (hR a ha)
  · exact hA

/-- The updated row itself is in the table after `setProduct`. -/
theorem setProduct_mem_self {db : DB} {product p' : Product}
    (hmem : product ∈ db.products) (hid : p'.id = product.id) :
    p' ∈ (setProduct db p').products := by
  refine List.mem_map.mpr ⟨product, hmem, ?_⟩
  have hc : (product.id == p'.id) = true := by simp [hid]
  simp [hc]

/-- `_check_and_create_alerts` preserves the alert invariant: it only adds an
alert after its duplicate check, which by `AlertsRefOK` and key uniqueness
sees every active alert of the pair. -/
theorem ainv_cca {db : DB} {p : Product} {tid : Nat}
    (hp : ∃ q ∈ db.products, q.id = p.id ∧ q.tenant_id = tid)
    (h : AInv db) : AInv (check_and_create_alerts db p tid) := by
  obtain ⟨hU, hR, hA⟩ := h
  have hzero : ∀ k : AlertType, ¬ActiveAlert db p.id tid k →
      countActive db.alerts p.id k = 0 := by
    intro k hno
    rw [countActive_eq_zero_iff]
    rintro a ha ⟨h1, h2, h3⟩
    apply hno
    obtain ⟨q, hq, hq1, hq2⟩ := hR a ha
    obtain ⟨q', hq', hq1', hq2'⟩ := hp
    have hqq : q = q' := uniqueIds_eq hU hq hq' (by rw [hq1, h1, hq1'])
    exact ⟨a, ha, h1, by rw [← hq2, hqq, hq2'], h2, h3⟩
  refine ⟨?_, ?_, ?_⟩
  · unfold UniqueIds
    rw [cca_products]
    exact hU
  · intro a ha
    rw [cca_alerts_eq] at ha
    show ∃ q ∈ (check_and_create_alerts db p tid).products,
      q.id = a.product_id ∧ q.tenant_id = a.tenant_id
    rw [cca_products]
    by_cases h1 : p.stock ≤ p.min_stock ∧ 0 < p.stock
    · rw [if_pos h1] at ha
      by_cases hg : ActiveAlert db p.id tid .low_stock
      · rw [if_pos hg] at ha
        exact hR a ha
      · rw [if_neg hg] at ha
        rcases List.mem_append.mp ha with hl | hr
        · exact hR a hl
        · have he : a = lowStockAlert tid p := List.mem_singleton.mp hr
          subst he
          obtain ⟨q', hq', hq1', hq2'⟩ := hp
          exact ⟨q', hq', hq1', hq2'⟩
    · rw [if_neg h1] at ha
      by_cases h2 : p.stock ≤ 0
      · rw [if_pos h2] at ha
        by_cases hg : ActiveAlert db p.id tid .out_of_stock
        · rw [if_pos hg] at ha
          exact hR a ha
        · rw [if_neg hg] at ha
          rcases List.mem_append.mp ha with hl | hr
          · exact hR a hl
          · have he : a = outOfStockAlert tid p := List.mem_singleton.mp hr
            subst he
            obtain ⟨q', hq', hq1', hq2'⟩ := hp
            exact ⟨q', hq', hq1', hq2'⟩
      · rw [if_neg h2] at ha
        exact hR a ha
  · intro pid k
    show countActive (check_and_create_alerts db p tid).alerts pid k ≤ 1
    rw [cca_alerts_eq]
    by_cases h1 : p.stock ≤ p.min_stock ∧ 0 < p.stock
    · rw [if_pos h1]
      by_cases hg : ActiveAlert db p.id tid .low_stock
      · rw [if_pos hg]
        exact hA pid k
      · rw [if_neg hg, countActive_append]
        by_cases hmatch : pid = p.id ∧ k = AlertType.low_stock
        · obtain ⟨hm1, hm2⟩ := hmatch
          have h0 : countActive db.alerts pid k = 0 := by
            rw [hm1, hm2]
            exact hzero _ hg
          rw [h0]
          simpa using countActive_singleton_le (lowStockAlert tid p) pid k
        · have h0 : countActive [lowStockAlert tid p] pid k = 0 := by
            apply countActive_singleton_miss
            rintro ⟨hx1, _, hx3⟩
            exact hmatch ⟨hx1.symm, hx3.symm⟩
          rw [h0]
          simpa using hA pid k
    · rw [if_neg h1]
      by_cases h2 : p.stock ≤ 0
      · rw [if_pos h2]
        by_cases hg : ActiveAlert db p.id tid .out_of_stock
        · rw [if_pos hg]
          exact hA pid k
        · rw [if_neg hg, countActive_append]
          by_cases hmatch : pid = p.id ∧ k = AlertType.out_of_stock
          · obtain ⟨hm1, hm2⟩ := hmatch
            have h0 : countActive db.alerts pid k = 0 := by
              rw [hm1, hm2]
              exact hzero _ hg
            rw [h0]
            simpa using countActive_singleton_le (outOfStockAlert tid p) pid k
          · have h0 : countActive [outOfStockAlert tid p] pid k = 0 := by
              apply countActive_singleton_miss
              rintro ⟨hx1, _, hx3⟩
              exact hmatch ⟨hx1.symm, hx3.symm⟩
            rw [h0]
            simpa using hA pid k
      · rw [if_neg h2]
        exact hA pid k

/-- `_check_and_resolve_alerts` preserves the alert invariant: it only flips
statuses away from active, so counts never grow, and it keeps every alert's
product and tenant fields. -/
theorem ainv_crs (db : DB) (p : Product) (tid : Nat) (h : AInv db) :
    AInv (check_and_resolve_alerts db p tid) := by
  obtain ⟨hU, hR, hA⟩ := h
  refine ⟨?_, ?_, ?_⟩
  · unfold UniqueIds
    rw [crs_products]
    exact hU
  · intro a ha
    obtain ⟨b, hb, hfb⟩ := List.mem_map.mp ha
    obtain ⟨q, hq, hq1, hq2⟩ := hR b hb
    obtain ⟨hf1, hf2, hf3⟩ := resolveAlert_fields p tid b
    refine ⟨q, hq, ?_, ?_⟩
    · rw [← hfb, hf1]
      exact hq1
    · rw [← hfb, hf2]
      exact hq2
  · intro pid k
    show countActive (db.alerts.map (resolveAlert p tid)) pid k ≤ 1
    exact le_trans (countActive_resolve_le p tid db.alerts pid k) (hA pid k)

/-- `add_stock` preserves the alert invariant. -/
theorem add_stock_ainv {db db' : DB} {pid : Nat} {q : Int} {tid : Nat} {uid : Option Nat}
    {c : Option ℚ} {r n : Option String} {m : InventoryMovement}
    (h : add_stock db pid q tid uid c r n = .ok (db', m)) (hI : AInv db) : AInv db' := by
  obtain ⟨product, hget, hq, hm, hdb⟩ := add_stock_ok h
  have hmem : product ∈ db.products := List.mem_of_find?_eq_some hget
  subst hdb
  exact ainv_crs _ _ _ (ainv_fields rfl rfl (ainv_setProduct hmem rfl rfl hI))

/-- `remove_stock` preserves the alert invariant. -/
theorem remove_stock_ainv {db db' : DB} {pid : Nat} {q : Int} {tid : Nat} {uid : Option Nat}
    {r n : Option String} {an : Bool} {m : InventoryMovement}
    (h : remove_stock db pid q tid uid r n an = .ok (db', m)) (hI : AInv db) : AInv db' := by
  obtain ⟨product, hget, hq, _, hm, hdb⟩ := remove_stock_ok h
  have hmem : product ∈ db.products := List.mem_of_find?_eq_some hget
  obtain ⟨hpid, htid⟩ := getProduct_id hget
  subst hdb
  refine ainv_cca ?_ (ainv_fields rfl rfl (ainv_setProduct hmem rfl rfl hI))
  exact ⟨{ product with stock := product.stock - q },
    setProduct_mem_self hmem rfl, rfl, htid⟩

/-- `adjust_stock` preserves the alert invariant. -/
theorem adjust_stock_ainv {db db' : DB} {pid : Nat} {ns : Int} {tid : Nat} {uid : Option Nat}
    {reason : Option String} {m : InventoryMovement}
    (h : adjust_stock db pid ns tid uid reason = .ok (db', m)) (hI : AInv db) : AInv db' := by
  obtain ⟨product, hget, hns, hne, hm, hdb⟩ := adjust_stock_ok h
  have hmem : product ∈ db.products := List.mem_of_find?_eq_some hget
  obtain ⟨hpid, htid⟩ := getProduct_id hget
  by_cases hlt : ns - product.stock < 0
  · rw [if_pos hlt] at hdb
    subst hdb
    refine ainv_cca ?_ (ainv_fields rfl rfl (ainv_setProduct hmem rfl rfl hI))
    exact ⟨{ product with stock := ns },
      setProduct_mem_self hmem rfl, rfl, htid⟩
  · rw [if_neg hlt] at hdb
    subst hdb
    exact ainv_crs _ _ _ (ainv_fields rfl rfl (ainv_setProduct hmem rfl rfl hI))

/-- The sale item loop preserves the alert invariant (it never touches the
alert table and keeps each product's id and tenant). -/
theorem processSaleItems_ainv {tid uid sid : Nat} :
    ∀ (items : List SaleItemInput) (db : DB) (total : ℚ) (acc : List SaleItem)
      (db' : DB) (total' : ℚ) (acc' : List SaleItem),
      processSaleItems tid uid sid items db total acc = .ok (db', total', acc') →
      AInv db → AInv db' := by
  intro items
  induction items with
  | nil =>
    intro db total acc db' total' acc' h hI
    unfold processSaleItems at h
    simp only [Except.ok.injEq, Prod.mk.injEq] at h
    rw [← h.1]
    exact hI
  | cons item rest ih =>
    intro db total acc db' total' acc' h hI
    unfold processSaleItems at h
    split at h
    · simp at h
    · rename_i product hget
      split at h
      · simp at h
      · dsimp only at h
        refine ih _ _ _ _ _ _ h ?_
        have hmem : product ∈ db.products := List.mem_of_find?_eq_some hget
        exact ainv_fields rfl rfl (ainv_setProduct hmem rfl rfl hI)

/-- The annulment loop preserves the alert invariant. -/
theorem annulItems_ainv {tid : Nat} {uid : Option Nat} {sid : Nat} :
    ∀ (items : List SaleItem) (db db' : DB),
      annulItems tid uid sid items db = .ok db' → AInv db → AInv db' := by
  intro items
  induction items with
  | nil =>
    intro db db' h hI
    unfold annulItems at h
    simp only [Except.ok.injEq] at h
    rw [← h]
    exact hI
  | cons item rest ih =>
    intro db db' h hI
    unfold annulItems at h
    split at h
    · simp at h
    · rename_i product hfind
      refine ih _ _ h ?_
      have hmem : product ∈ db.products := List.mem_of_find?_eq_some hfind
      exact ainv_fields rfl rfl (ainv_setProduct hmem rfl rfl hI)

/-- `create_sale` preserves the alert invariant. -/
theorem create_sale_ainv {db db' : DB} {tid uid : Nat} {inp : SaleInput} {sale : Sale}
    (h : create_sale db tid uid inp = .ok (db', sale)) (hI : AInv db) : AInv db' := by
  simp only [create_sale] at h
  split at h
  · simp at h
  · rename_i res db1 total items heq
    simp only [Except.ok.injEq, Prod.mk.injEq] at h
    obtain ⟨hdb, _⟩ := h
    rw [← hdb]
    have h0 : AInv { db with next_sale_id := db.next_sale_id + 1 } :=
      ainv_fields rfl rfl hI
    have h1 := processSaleItems_ainv _ _ _ _ _ _ _ heq h0
    exact ainv_fields rfl rfl h1

/-- `annul_sale` preserves the alert invariant. -/
theorem annul_sale_ainv {db db' : DB} {sid tid uid : Nat} {os : Option Sale}
    (h : annul_sale db sid tid uid = .ok (db', os)) (hI : AInv db) : AInv db' := by
  unfold annul_sale at h
  split at h
  · simp only [Except.ok.injEq, Prod.mk.injEq] at h
    rw [← h.1]
    exact hI
  · split at h
    · simp at h
    · split at h
      · simp at h
      · rename_i db1 hann
        dsimp only at h
        simp only [Except.ok.injEq, Prod.mk.injEq] at h
        obtain ⟨hdb, _⟩ := h
        rw [← hdb]
        have h1 := annulItems_ainv _ _ _ hann hI
        exact ainv_fields rfl rfl h1

/-- Every successful operation preserves the alert invariant. -/
theorem step_ainv {db db' : DB} (h : Step db db') (hI : AInv db) : AInv db' := by
  cases h with
  | add _ _ _ _ _ _ _ _ h => exact add_stock_ainv h hI
  | remove _ _ _ _ _ _ _ _ h => exact remove_stock_ainv h hI
  | adjust _ _ _ _ _ _ h => exact adjust_stock_ainv h hI
  | sale _ _ _ _ h => exact create_sale_ainv h hI
  | annul _ _ _ _ h => exact annul_sale_ainv h hI

/-- The alert invariant holds in every reachable state. -/
theorem reachable_ainv {db db' : DB} (h : Reachable db db') (hI : AInv db) : AInv db' := by
  induction h with
  | refl => exact hI
  | tail _ hstep ih => exact step_ainv hstep ih

/-- After `_check_and_resolve_alerts`, an OUT_OF_STOCK alert is active
exactly when one was active before and the stock is still not positive. -/
theorem crs_active_out (db : DB) (p : Product) (tid : Nat) :
    ActiveAlert (check_and_resolve_alerts db p tid) p.id tid .out_of_stock ↔
      (ActiveAlert db p.id tid .out_of_stock ∧ p.stock ≤ 0) := by
  rw [crs_active_iff]
  constructor
  · rintro ⟨h1, h2⟩
    refine ⟨h1, ?_⟩
    by_contra hpos
    exact h2 (Or.inl ⟨rfl, by omega⟩)
  · rintro ⟨h1, h2⟩
    refine ⟨h1, ?_⟩
    rintro (⟨_, hpos⟩ | ⟨hk, _⟩)
    · omega
    · exact AlertType.noConfusion hk

/-- After `_check_and_resolve_alerts`, a LOW_STOCK alert is active exactly
when one was active before and the stock is still at or below the minimum. -/
theorem crs_active_low (db : DB) (p : Product) (tid : Nat) :
    ActiveAlert (check_and_resolve_alerts db p tid) p.id tid .low_stock ↔
      (ActiveAlert db p.id tid .low_stock ∧ p.stock ≤ p.min_stock) := by
  rw [crs_active_iff]
  constructor
  · rintro ⟨h1, h2⟩
    refine ⟨h1, ?_⟩
    by_contra hpos
    exact h2 (Or.inr ⟨rfl, by omega⟩)
  · rintro ⟨h1, h2⟩
    refine ⟨h1, ?_⟩
    rintro (⟨hk, _⟩ | ⟨_, hpos⟩)
    · exact AlertType.noConfusion hk
    · omega

/-- The product row of `dbS`, as `getProduct` returns it. -/
def pC7 : Product :=
  { id := 1
    tenant_id := 1
    name := "P"
    price := 10
    cost := some 5
    stock := 10
    min_stock := 5 }

/-- Witness state: the movement written by `remove_stock dbS 1 6 1`. -/
def mC7 : InventoryMovement :=
  { tenant_id := 1
    product_id := 1
    user_id := none
    movement_type := .exit
    quantity := -6
    stock_before := 10
    stock_after := 4
    unit_cost := none
    reference := none
    notes := none }

/-- Witness state: `dbS` after `remove_stock dbS 1 6 1` (stock 10 → 4,
below the minimum of 5, so one active LOW_STOCK alert was created). -/
def dbC7 : DB :=
  { products := [{ id := 1, tenant_id := 1, name := "P", price := 10, cost := some 5,
                   stock := 4, min_stock := 5 }]
    movements := [mC7]
    alerts := [{ tenant_id := 1, product_id := 1, alert_type := .low_stock,
                 status := .active, current_stock := 4, threshold_value := 5,
                 message := "Stock bajo" }]
    sales := []
    sale_items := []
    next_sale_id := 1 }

/-- C7: alert derivation.  (1) After a successful `remove_stock` for a
product with prior stock s, a LOW_STOCK alert is created (one new row,
active, for this product and tenant) exactly when `0 < s - q ≤ min_stock`
and no active LOW_STOCK alert existed, and an OUT_OF_STOCK alert exactly
when `s - q ≤ 0` and no active OUT_OF_STOCK alert existed.  (2) After a
successful `add_stock`, an active OUT_OF_STOCK alert remains active exactly
when `s + q ≤ 0` (so it is resolved once stock > 0), and an active
LOW_STOCK alert exactly when `s + q ≤ min_stock` (resolved once
stock > min_stock); no alert appears out of nowhere.  (3) `adjust_stock`
behaves as (1) on a decrease and as (2) on an increase, with final stock
`new_stock`.  (4) Consequently, from any state satisfying the alert
invariant (key uniqueness, alerts referencing existing products of their
tenant, at most one active alert per (product, kind)), every state
reachable through the five operations keeps at most one active alert per
(product, alert kind) pair. -/
theorem alert_derivation :
    (∀ (db db' : DB) (pid : Nat) (q : Int) (tid : Nat) (uid : Option Nat)
       (r n : Option String) (an : Bool) (m : InventoryMovement) (product : Product),
       remove_stock db pid q tid uid r n an = .ok (db', m) →
       getProduct db pid tid = some product →
       ((∃ nw, db'.alerts = db.alerts ++ [nw] ∧ nw.alert_type = .low_stock ∧
           nw.status = .active ∧ nw.product_id = pid ∧ nw.tenant_id = tid) ↔
         (0 < product.stock - q ∧ product.stock - q ≤ product.min_stock ∧
           ¬ActiveAlert db pid tid .low_stock)) ∧
       ((∃ nw, db'.alerts = db.alerts ++ [nw] ∧ nw.alert_type = .out_of_stock ∧
           nw.status = .active ∧ nw.product_id = pid ∧ nw.tenant_id = tid) ↔
         (product.stock - q ≤ 0 ∧ ¬ActiveAlert db pid tid .out_of_stock))) ∧
    (∀ (db db' : DB) (pid : Nat) (q : Int) (tid : Nat) (uid : Option Nat)
       (c : Option ℚ) (r n : Option String) (m : InventoryMovement) (product : Product),
       add_stock db pid q tid uid c r n = .ok (db', m) →
       getProduct db pid tid = some product →
       (ActiveAlert db' pid tid .out_of_stock ↔
         (ActiveAlert db pid tid .out_of_stock ∧ product.stock + q ≤ 0)) ∧
       (ActiveAlert db' pid tid .low_stock ↔
         (ActiveAlert db pid tid .low_stock ∧ product.stock + q ≤ product.min_stock))) ∧
    (∀ (db db' : DB) (pid : Nat) (ns : Int) (tid : Nat) (uid : Option Nat)
       (reason : Option String) (m : InventoryMovement) (product : Product),
       adjust_stock db pid ns tid uid reason = .ok (db', m) →
       getProduct db pid tid = some product →
       (ns - product.stock < 0 →
          (((∃ nw, db'.alerts = db.alerts ++ [nw] ∧ nw.alert_type = .low_stock ∧
              nw.status = .active ∧ nw.product_id = pid ∧ nw.tenant_id = tid) ↔
            (0 < ns ∧ ns ≤ product.min_stock ∧ ¬ActiveAlert db pid tid .low_stock)) ∧
           ((∃ nw, db'.alerts = db.alerts ++ [nw] ∧ nw.alert_type = .out_of_stock ∧
              nw.status = .active ∧ nw.product_id = pid ∧ nw.tenant_id = tid) ↔
            (ns ≤ 0 ∧ ¬ActiveAlert db pid tid .out_of_stock)))) ∧
       (0 < ns - product.stock →
          ((ActiveAlert db' pid tid .out_of_stock ↔
             (ActiveAlert db pid tid .out_of_stock ∧ ns ≤ 0)) ∧
           (ActiveAlert db' pid tid .low_stock ↔
             (ActiveAlert db pid tid .low_stock ∧ ns ≤ product.min_stock))))) ∧
    (∀ (db0 db : DB), Reachable db0 db → AInv db0 → AlertUnique db) := by
  refine ⟨?_, ?_, ?_, ?_⟩
  · intro db db' pid q tid uid r n an m product h hget
    obtain ⟨product', hget', _, _, hm, hdb⟩ := remove_stock_ok h
    obtain rfl : product = product' := Option.some.inj (hget.symm.trans hget')
    obtain ⟨hpid, htid⟩ := getProduct_id hget
    subst hdb
    have hcca := cca_created_iff
      { setProduct db { product with stock := product.stock - q } with
        movements := db.movements ++ [m] }
      { product with stock := product.stock - q } tid
    rw [← hpid]
    exact hcca
  · intro db db' pid q tid uid c r n m product h hget
    obtain ⟨product', hget', _, hm, hdb⟩ := add_stock_ok h
    obtain rfl : product = product' := Option.some.inj (hget.symm.trans hget')
    obtain ⟨hpid, htid⟩ := getProduct_id hget
    subst hdb
    constructor
    · have h1 := crs_active_out
        { setProduct db { product with stock := product.stock + q } with
          movements := db.movements ++ [m] }
        { product with stock := product.stock + q } tid
      rw [← hpid]
      exact h1
    · have h1 := crs_active_low
        { setProduct db { product with stock := product.stock + q } with
          movements := db.movements ++ [m] }
        { product with stock := product.stock + q } tid
      rw [← hpid]
      exact h1
  · intro db db' pid ns tid uid reason m product h hget
    obtain ⟨product', hget', hns, hne, hm, hdb⟩ := adjust_stock_ok h
    obtain rfl : product = product' := Option.some.inj (hget.symm.trans hget')
    obtain ⟨hpid, htid⟩ := getProduct_id hget
    constructor
    · intro hlt
      rw [if_pos hlt] at hdb
      subst hdb
      have hcca := cca_created_iff
        { setProduct db { product with stock := ns } with
          movements := db.movements ++ [m] }
        { product with stock := ns } tid
      rw [← hpid]
      exact hcca
    · intro hgt
      rw [if_neg (by omega : ¬ns - product.stock < 0)] at hdb
      subst hdb
      constructor
      · have h1 := crs_active_out
          { setProduct db { product with stock := ns } with
            movements := db.movements ++ [m] }
          { product with stock := ns } tid
        rw [← hpid]
        exact h1
      · have h1 := crs_active_low
          { setProduct db { product with stock := ns } with
            movements := db.movements ++ [m] }
          { product with stock := ns } tid
        rw [← hpid]
        exact h1
  · intro db0 db hre hA0
    exact (reachable_ainv hre hA0).2.2

/-- C7 witness: on the sample state (stock 10, min 5, no alerts),
`remove_stock` of 6 creates one active LOW_STOCK alert, and the resulting
state keeps at most one active alert per (product, kind). -/
theorem alert_derivation_witness :
    (∃ nw, dbC7.alerts = dbS.alerts ++ [nw] ∧ nw.alert_type = .low_stock ∧
        nw.status = .active ∧ nw.product_id = 1 ∧ nw.tenant_id = 1) ∧
    AlertUnique dbC7 := by
  have hstep : remove_stock dbS 1 6 1 none none none false = .ok (dbC7, mC7) := by decide
  have hget : getProduct dbS 1 1 = some pC7 := by decide
  constructor
  · exact ((alert_derivation.1 dbS dbC7 1 6 1 none none none false mC7 _ hstep hget).1).mpr
      (by decide)
  · exact alert_derivation.2.2.2 dbS dbC7
      (Relation.ReflTransGen.tail Relation.ReflTransGen.refl
        (Step.remove dbS dbC7 1 6 1 none none none false mC7 hstep))
      ⟨by unfold UniqueIds; decide, by unfold AlertsRefOK; decide,
        fun pid k => Nat.zero_le 1⟩

end Inventory
